import Mathlib

/-!
Verification development for the folly stack symbolizer
(folly/experimental/symbolizer/Symbolizer.cpp).

The definitions below are a shallow embedding of the C++ source.  Machine
integers (size_t, uintptr_t) are modelled as Nat with explicit wraparound
(mod 2^64) where overflow can matter.  External collaborators (ELF object
files, the DWARF debug-info service, the dynamic linker's module list) are
modelled as opaque function-valued records, exactly as the source consumes
them.  Two pieces of the repository live in headers that are not part of
the provided source file (constants and type declarations only); those are
modelled from the spec and marked as such in their doc comments.
-/

/-- Word size of the platform: size_t and uintptr_t are 64-bit. -/
def usize : Nat := 2 ^ 64

/-- Largest representable size_t value. -/
def usizeMax : Nat := usize - 1

/-- uintptr_t subtraction with wraparound, as in
`addr - reinterpret_cast<uintptr_t>(lmap->l_addr)`. For a, b < 2^64 this is
exactly the C subtraction. -/
def usub64 (a b : Nat) : Nat := (a + usize - b % usize) % usize

/-- LocationInfoMode enum (declared in the header; the .cpp uses
FULL_WITH_INLINE and FULL). Modelled from the spec: enum with members
none, fast, full, full-with-inline. -/
inductive LocationInfoMode where
  | DISABLED
  | FAST
  | FULL
  | FULL_WITH_INLINE
deriving DecidableEq, Repr

/-- Dwarf location info carried by a frame (spec section 3: has-file-and-line
flag, file path, line number, has-main-file flag, main file). -/
structure LocationInfo where
  hasFileAndLine : Bool := false
  file : String := ""
  line : Nat := 0
  hasMainFile : Bool := false
  mainFile : String := ""
deriving DecidableEq, Repr

instance : Inhabited LocationInfo := ⟨{}⟩

/-- SymbolizedFrame: found flag, address, symbol name (a possibly-null
const char*), location info and the owning-object handle (modelled by the
object's numeric identity). A default-constructed frame has found = false,
addr = 0 and no name or file. -/
structure SymbolizedFrame where
  found : Bool := false
  addr : Nat := 0
  name : Option String := none
  location : LocationInfo := {}
  fileId : Option Nat := none
deriving DecidableEq, Repr

instance : Inhabited SymbolizedFrame := ⟨{}⟩

/-- frame.clear(): reset to the default-constructed frame. -/
def SymbolizedFrame.clear (_f : SymbolizedFrame) : SymbolizedFrame := {}

/-- The countFrames lambda: distance from the start of the range to the
first frame with found = false. -/
def countFrames (l : List SymbolizedFrame) : Nat :=
  (l.takeWhile (fun f => f.found)).length

/-- One loaded object of the dynamic linker's module list: l_name and
l_addr fields of a link_map record. -/
structure LinkMapEntry where
  l_name : String
  l_addr : Nat
deriving Repr

/-- An opened ELF object together with its Dwarf debug-info service, as the
symbolizer consumes them: getDefinitionByAddress (returns a symbol handle
when found), getSymbolName, getSectionContainingAddress, and
Dwarf::findAddress split into the location part and the inline-chain part
(the inline frames the service would write, innermost first). `id` stands
for the object handle's identity stored into resolved frames. -/
structure ElfFileModel where
  id : Nat
  defByAddr : Nat → Option Nat
  symbolName : Nat → Option String
  hasSection : Nat → Bool
  dwLocation : Nat → LocationInfoMode → LocationInfo
  dwInline : Nat → List SymbolizedFrame

/-- Process-wide inputs of one symbolize() call: the dynamic-linker debug
interface version (_r_debug.r_version), the readlink("/proc/self/exe")
result (none on failure), the module list (_r_debug.r_map chain) and the
object-file cache lookup (cache_->getFile). -/
structure Env where
  rVersion : Nat
  selfPath : Option String
  linkMaps : List LinkMapEntry
  getFile : String → Option ElfFileModel

/-- Object path selection: the empty l_name denotes the running executable,
whose path was read from /proc/self/exe. -/
def objPath (m : LinkMapEntry) (self : String) : String :=
  if m.l_name ≠ "" then m.l_name else self

/-- Modelled from the spec: Dwarf::kMaxInlineLocationInfoPerFrame, the
"maximum inline-frames-per-address constant" (declared in Dwarf.h, not part
of the provided source). The claims depend only on it being positive. -/
def kMaxInlineLocationInfoPerFrame : Nat := 5

/-- Modelled from the spec: the CachedSymbolizedFrames array size (declared
in the header, not part of the provided source). The spec describes the
cached value as one real frame plus up to the bounded inline count. -/
def kCachedFrames : Nat := kMaxInlineLocationInfoPerFrame + 1

/-- std::move_backward(l+first, l+last, l+dlast): the range [first,last) is
copied so that it ends at dlast; entries in front of the destination and at
dlast or beyond keep their old values. -/
def moveBackward (l : List α) (first last dlast : Nat) : List α :=
  l.take (dlast - (last - first)) ++ (l.drop first).take (last - first) ++ l.drop dlast

/-- std::copy(src.begin(), src.begin()+len, dst.begin()+pos). -/
def copyInto (src : List α) (len : Nat) (dst : List α) (pos : Nat) : List α :=
  dst.take pos ++ src.take len ++ dst.drop (pos + len)

/-- std::rotate(l+first, l+middle, l+last): [middle,last) moves in front of
[first,middle); entries outside [first,last) are unchanged. -/
def rotateRange (l : List α) (first middle last : Nat) : List α :=
  l.take first ++ (l.drop middle).take (last - middle) ++
    (l.drop first).take (middle - first) ++ l.drop last

/-- Half-open index interval [a, b), used to record which frame-buffer
slots an operation touches. -/
def idxRange (a b : Nat) : List Nat := (List.range (b - a)).map (a + ·)

/-- Symbol cache lookup (EvictingCacheMap::find). -/
def cacheFind (c : List (Nat × List SymbolizedFrame)) (a : Nat) :
    Option (List SymbolizedFrame) :=
  (c.find? (fun p => p.1 == a)).map (fun p => p.2)

/-- Symbol cache upsert (EvictingCacheMap::set). Modelled from the spec:
the EvictingCacheMap collaborator is consumed as an associative store; its
LRU eviction is not exercised by any claim and is not modelled. -/
def cacheSet (c : List (Nat × List SymbolizedFrame)) (a : Nat)
    (g : List SymbolizedFrame) : List (Nat × List SymbolizedFrame) :=
  (a, g) :: c.eraseP (fun p => p.1 == a)

/-- setSymbolizedFrame: clear the frame, mark it found, and when the object
has a definition for the address fill in address, object handle, name and
Dwarf location. Returns the frame together with the inline frames Dwarf
writes into the scratch range handed to it (at most its size, maxInline);
when the symbol lookup fails the function returns before calling Dwarf, so
no inline frames are produced. -/
def setSymbolizedFrame (file : ElfFileModel) (address : Nat)
    (mode : LocationInfoMode) (maxInline : Nat) :
    SymbolizedFrame × List SymbolizedFrame :=
  match file.defByAddr address with
  | none => ({ found := true }, [])
  | some sym =>
      ({ found := true
         addr := address
         name := file.symbolName sym
         location := file.dwLocation address mode
         fileId := some file.id },
       (file.dwInline address).take maxInline)

/-- The mutable state of one symbolize() call: the frame buffer, the
logical address count (grows as inline frames are stitched in), the
outstanding-unresolved counter, the symbol cache, plus two instrumentation
logs: the (object-relative) addresses for which the debug-info services
were invoked, and every frame-buffer index the call accessed. -/
structure SymState where
  frames : List SymbolizedFrame
  addrCount : Nat
  remaining : Nat
  cache : List (Nat × List SymbolizedFrame)
  queryLog : List Nat
  acc : List Nat
deriving Inhabited

/-- The group of frames copied into the cache after a resolution:
min(numInlined+1, kCachedFrames) frames starting at index i, padded with
default-constructed frames to the fixed array size. -/
def mkCacheGroup (frames : List SymbolizedFrame) (i numInlined : Nat) :
    List SymbolizedFrame :=
  (frames.drop i).take (min (numInlined + 1) kCachedFrames) ++
    List.replicate (kCachedFrames - min (numInlined + 1) kCachedFrames) ({} : SymbolizedFrame)

/-- One iteration of the inner per-address loop of symbolize() for the
current object: frames[i] is skipped when already found; otherwise the
symbol cache is consulted (a hit replays the cached group when its inline
frames fit in the remaining slack, and is otherwise skipped outright);
otherwise the address is normalized and, when it falls in a known section,
resolved — with scratch-space inline expansion and rotation under
FULL_WITH_INLINE when trailing slots exist, directly into the single slot
otherwise — decrementing `remaining` and populating the cache. Returns the
next loop index and the new state. -/
def innerBody (file : ElfFileModel) (lAddr : Nat) (mode : LocationInfoMode)
    (ce : Bool) (frameCount : Nat) (i : Nat) (s : SymState) : Nat × SymState :=
  let s := { s with acc := s.acc ++ [i] }
  let frame := s.frames.getD i {}
  if frame.found then (i + 1, s)
  else
    let addr := frame.addr
    match (if ce then cacheFind s.cache addr else none) with
    | some group =>
        let numCachedFrames := countFrames group
        let numInlineFrames :=
          if numCachedFrames = 0 then usizeMax else numCachedFrames - 1
        if numInlineFrames ≤ frameCount - s.addrCount then
          let frames1 := moveBackward s.frames (i + 1) s.addrCount
            (s.addrCount + numInlineFrames)
          let frames2 := copyInto group (numInlineFrames + 1) frames1 i
          (i + numInlineFrames + 1,
           { s with
              frames := frames2
              addrCount := s.addrCount + numInlineFrames
              acc := s.acc ++ idxRange (i + 1) s.addrCount ++
                idxRange (i + 1 + numInlineFrames) (s.addrCount + numInlineFrames) ++
                idxRange i (i + numInlineFrames + 1) })
        else (i + 1, s)
    | none =>
      let adjusted := usub64 addr lAddr
      let s := { s with queryLog := s.queryLog ++ [adjusted] }
      if file.hasSection adjusted then
        if mode = LocationInfoMode.FULL_WITH_INLINE ∧ frameCount > s.addrCount then
          let maxInline := min kMaxInlineLocationInfoPerFrame (frameCount - s.addrCount)
          let fr := setSymbolizedFrame file adjusted mode maxInline
          let frames1 := copyInto fr.2 fr.2.length s.frames s.addrCount
          let frames2 := frames1.set i fr.1
          let numInlined := countFrames ((frames2.drop s.addrCount).take maxInline)
          let frames3 := rotateRange frames2 i s.addrCount (s.addrCount + numInlined)
          let s :=
            { s with
               frames := frames3
               addrCount := s.addrCount + numInlined
               remaining := s.remaining - 1
               acc := s.acc ++ idxRange s.addrCount (s.addrCount + maxInline) ++
                 [i] ++ idxRange i (s.addrCount + numInlined) }
          let s := if ce then
              { s with
                 cache := cacheSet s.cache addr (mkCacheGroup s.frames i numInlined)
                 acc := s.acc ++ idxRange i (i + min (numInlined + 1) kCachedFrames) }
            else s
          (i + numInlined + 1, s)
        else
          let fr := setSymbolizedFrame file adjusted mode 0
          let s :=
            { s with
               frames := s.frames.set i fr.1
               remaining := s.remaining - 1
               acc := s.acc ++ [i] }
          let s := if ce then
              { s with
                 cache := cacheSet s.cache addr (mkCacheGroup s.frames i 0)
                 acc := s.acc ++ idxRange i (i + min 1 kCachedFrames) }
            else s
          (i + 1, s)
      else (i + 1, s)

/-- The inner per-address loop: `for (size_t i = 0; i < addrCount && remaining != 0; ++i)`.
The loop measure addrCount - i strictly decreases every iteration, so any
fuel of at least the entry value of addrCount - i gives the exact loop. -/
def innerLoop (file : ElfFileModel) (lAddr : Nat) (mode : LocationInfoMode)
    (ce : Bool) (frameCount : Nat) : Nat → Nat → SymState → SymState
  | 0, _, s => s
  | fuel + 1, i, s =>
      if i < s.addrCount ∧ s.remaining ≠ 0 then
        let r := innerBody file lAddr mode ce frameCount i s
        innerLoop file lAddr mode ce frameCount fuel r.1 r.2
      else s

/-- The outer loop over the dynamic linker's module list:
`for (auto lmap = _r_debug.r_map; lmap != nullptr && remaining != 0; ...)`.
An object the object cache cannot open is skipped. -/
def outerLoop (env : Env) (self : String) (mode : LocationInfoMode)
    (ce : Bool) (frameCount : Nat) : List LinkMapEntry → SymState → SymState
  | [], s => s
  | m :: rest, s =>
      if s.remaining ≠ 0 then
        let s1 :=
          match env.getFile (objPath m self) with
          | none => s
          | some file => innerLoop file m.l_addr mode ce frameCount (s.addrCount + 1) 0 s
        outerLoop env self mode ce frameCount rest s1
      else s

/-- First pass of symbolize(): count the not-yet-found frames among the
first addrCount slots and clear each of them. -/
def clearUnfound : Nat → List SymbolizedFrame → List SymbolizedFrame
  | _, [] => []
  | 0, fs => fs
  | n + 1, f :: fs => (if f.found then f else {}) :: clearUnfound n fs

/-- The `remaining` counter established by the first pass. -/
def countUnfound : Nat → List SymbolizedFrame → Nat
  | _, [] => 0
  | 0, _ => 0
  | n + 1, f :: fs => (if f.found then 0 else 1) + countUnfound n fs

/-- Second pass: `frames[i].addr = addrs[i]` for every i below addrCount. -/
def assignAddrs : List Nat → List SymbolizedFrame → List SymbolizedFrame
  | [], fs => fs
  | _, [] => []
  | a :: as, f :: fs => { f with addr := a } :: assignAddrs as fs

/-- Symbolizer::symbolize(addrs, frames). `ce` is whether the symbol cache
is enabled (constructor argument symbolCacheSize > 0) and `cache0` its
current contents. Early returns: nothing outstanding; unsupported
dynamic-linker version (_r_debug.r_version != 1); readlink failure on
/proc/self/exe. Otherwise original addresses are written back into the
frames and the object×address loops run. -/
def symbolize (env : Env) (mode : LocationInfoMode) (ce : Bool)
    (cache0 : List (Nat × List SymbolizedFrame)) (addrs : List Nat)
    (frames : List SymbolizedFrame) : SymState :=
  let addrCount := addrs.length
  let frameCount := frames.length
  let s0 : SymState :=
    { frames := clearUnfound addrCount frames
      addrCount := addrCount
      remaining := countUnfound addrCount frames
      cache := cache0
      queryLog := []
      acc := idxRange 0 addrCount }
  if s0.remaining = 0 then s0
  else if env.rVersion ≠ 1 then s0
  else
    match env.selfPath with
    | none => s0
    | some self =>
        let s1 := { s0 with
                      frames := assignAddrs addrs s0.frames
                      acc := s0.acc ++ idxRange 0 addrCount }
        outerLoop env self mode ce frameCount env.linkMaps s1

/-! ### AddressFormatter -/

/-- The hex digit table `kHexChars`. -/
def kHexChars : String := "0123456789abcdef"

/-- `kHexChars[d]` for a nibble d. -/
def hexChar (d : Nat) : Char := kHexChars.toList.getD d '0'

/-- The formatter's buffer template "0x0000000000000000" including its
terminating NUL byte (19 bytes), copied into buf_ by the constructor. -/
def bufTemplate : List Char := "0x0000000000000000".toList ++ [Char.ofNat 0]

/-- The buffer of a freshly constructed AddressFormatter. -/
def AddressFormatter.initBuf : List Char := bufTemplate

/-- The digit-writing loop of AddressFormatter::format: starting at
position p and walking backwards, write one lowercase hex digit per
iteration until the remaining address value is zero. uintptr_t values have
at most 16 hex digits, so the loop never walks below position 2; the
structural bound at position 0 is unreachable for address < 2^64. -/
def writeHexLoop : Nat → Nat → List Char → List Char
  | address, p, buf =>
    if address = 0 then buf
    else
      let buf2 := buf.set p (hexChar (address % 16))
      match p with
      | 0 => buf2
      | q + 1 => writeHexLoop (address / 16) q buf2

/-- AddressFormatter::format: write the NUL just past the digit area, fill
in the digits of `address` backwards from position 17, and return the view
of the first 18 characters together with the updated buffer. -/
def AddressFormatter.format (buf : List Char) (address : Nat) :
    List Char × List Char :=
  let buf1 := buf.set 18 (Char.ofNat 0)
  let buf2 := writeHexLoop address 17 buf1
  (buf2.take 18, buf2)

/-- Spec-side hex digit value, for parsing the rendering back. -/
def hexVal (c : Char) : Nat := kHexChars.toList.indexOf c

/-- Spec-side parser: interpret a most-significant-first hex digit string
as an integer. -/
def parseHex (s : List Char) : Nat :=
  s.foldl (fun acc c => acc * 16 + hexVal c) 0

/-! ### SafeStackTracePrinter -/

/-- The fixed capture-failure literal. -/
def kErrorLiteral : String := "(error retrieving stack trace)\n"

/-- The fixed safe-mode notice. -/
def kSafeModeLiteral : String := "(safe mode, symbolizer not available)\n"

/-- The address-only output loop of SafeStackTracePrinter::printStackTrace:
one AddressFormatter instance is constructed before the loop and its buffer
is threaded through every iteration; each iteration prints the returned
view followed by a newline. -/
def addrLinesLoop : List Nat → List Char → List Char
  | [], _ => []
  | a :: rest, buf =>
      let r := AddressFormatter.format buf a
      r.1 ++ '\n' :: addrLinesLoop rest r.2

/-- What a SafeStackTracePrinter::printStackTrace call printed, and whether
the sink was flushed when it returned. -/
structure PrintOutcome where
  out : List Char
  flushed : Bool
deriving DecidableEq, Repr

/-- SafeStackTracePrinter::printStackTrace(symbolize). `capture` is the
getStackTraceSafe result (none on failure, otherwise the captured
addresses); `symOut` is what the tier-2 symbolized pipeline
(printSymbolizedStackTrace, not exercised by these claims) would print.
The SCOPE_EXIT guard flushes the sink on every path. -/
def printStackTrace (capture : Option (List Nat)) (symbolizeFlag : Bool)
    (symOut : List Char) : PrintOutcome :=
  match capture with
  | none => { out := kErrorLiteral.toList, flushed := true }
  | some addrs =>
      if symbolizeFlag then { out := symOut, flushed := true }
      else
        { out := kSafeModeLiteral.toList ++ addrLinesLoop addrs AddressFormatter.initBuf
          flushed := true }

/-! ### Alternate-stack tier -/

/-- Size of the mmap-allocated stack. -/
def kMmapStackSize : Nat := 1 * 1024 * 1024

/-- Success or failure of the three system calls allocateStack performs. -/
structure MmapEnv where
  mmapOk : Bool
  mprotectLoOk : Bool
  mprotectHiOk : Bool

/-- The stack region handed to the execution context, described by offsets
into the mmap region: the two PROT_NONE guard areas and the usable stack
(ss_sp and ss_size of the context). -/
structure GuardedStack where
  guardLoPtr : Nat
  guardLoLen : Nat
  guardHiPtr : Nat
  guardHiLen : Nat
  stackSp : Nat
  stackSize : Nat
deriving DecidableEq, Repr

/-- allocateStack: mmap a kMmapStackSize region; fail if the mapping
fails, if two guard pages do not fit, or if either mprotect(PROT_NONE)
call fails; otherwise protect the first page and the trailing partial-page
region and hand out the stack strictly between them. -/
def allocateStack (menv : MmapEnv) (pageSize : Nat) : Option GuardedStack :=
  if ¬ menv.mmapOk then none
  else if kMmapStackSize ≤ pageSize * 2 then none
  else
    let upperBound := ((kMmapStackSize - 1) / pageSize) * pageSize
    if ¬ menv.mprotectLoOk then none
    else if ¬ menv.mprotectHiOk then none
    else some
      { guardLoPtr := 0
        guardLoLen := pageSize
        guardHiPtr := upperBound
        guardHiLen := kMmapStackSize - upperBound
        stackSp := pageSize
        stackSize := upperBound - pageSize }

/-- UnsafeSelfAllocateStackTracePrinter::printSymbolizedStackTrace: bail
out silently when the cached page size is non-positive, when getcontext
fails, when allocateStack fails, or when swapcontext fails; otherwise the
tier-2 pipeline runs on the alternate stack and produces its output. -/
def unsafePrintSymbolizedStackTrace (pageSizeUnchecked : Int)
    (menv : MmapEnv) (getcontextOk swapOk : Bool)
    (tier2Output : List Char) : List Char :=
  if pageSizeUnchecked ≤ 0 then []
  else if ¬ getcontextOk then []
  else
    match allocateStack menv pageSizeUnchecked.toNat with
    | none => []
    | some _ => if swapOk then tier2Output else []

/-! ### Basic lemmas about the first pass -/

/-- Clearing not-yet-found frames does not change any found flag. -/
theorem clearUnfound_getD_found (n : Nat) (fs : List SymbolizedFrame) (i : Nat) :
    ((clearUnfound n fs).getD i {}).found = ((fs.getD i {}).found) := by
  induction fs generalizing n i with
  | nil => simp [clearUnfound]
  | cons f fs ih =>
      cases n with
      | zero => simp [clearUnfound]
      | succ m =>
          cases i with
          | zero =>
              by_cases hf : f.found <;> simp [clearUnfound, hf]
          | succ j => simpa [clearUnfound] using ih m j

/-- When every examined frame is already found, nothing is outstanding. -/
theorem countUnfound_eq_zero (n : Nat) (fs : List SymbolizedFrame)
    (h : ∀ i < n, ((fs.getD i {}).found = true)) : countUnfound n fs = 0 := by
  induction fs generalizing n with
  | nil => cases n <;> simp [countUnfound]
  | cons f fs ih =>
      cases n with
      | zero => simp [countUnfound]
      | succ m =>
          have hf : f.found = true := by simpa using h 0 (Nat.succ_pos m)
          have hrest : ∀ i < m, ((fs.getD i {}).found = true) := by
            intro i hi
            simpa using h (i + 1) (Nat.succ_lt_succ hi)
          simp [countUnfound, hf, ih m hrest]

/-- When every examined frame is already found, the first pass leaves the
buffer untouched. -/
theorem clearUnfound_eq_self (n : Nat) (fs : List SymbolizedFrame)
    (h : ∀ i < n, ((fs.getD i {}).found = true)) : clearUnfound n fs = fs := by
  induction fs generalizing n with
  | nil => cases n <;> simp [clearUnfound]
  | cons f fs ih =>
      cases n with
      | zero => simp [clearUnfound]
      | succ m =>
          have hf : f.found = true := by simpa using h 0 (Nat.succ_pos m)
          have hrest : ∀ i < m, ((fs.getD i {}).found = true) := by
            intro i hi
            simpa using h (i + 1) (Nat.succ_lt_succ hi)
          simp [clearUnfound, hf, ih m hrest]

/-! ### A concrete process state used by several concrete scenarios -/

/-- A concrete loaded object: definitions exist at the object-relative
address 84 only, and the Dwarf inline chain there has two frames. -/
def fileA : ElfFileModel :=
  { id := 7
    defByAddr := fun n => if n == 84 then some 0 else none
    symbolName := fun _ => some "f"
    hasSection := fun n => n == 84
    dwLocation := fun _ _ => { hasFileAndLine := true, file := "a.c", line := 3 }
    dwInline := fun _ => [{ found := true, addr := 84, name := some "g" },
                          { found := true, addr := 84, name := some "h" }] }

/-- A concrete process state: supported linker version, readable self
path, and a single loaded object named "lib" at load bias 16 (so the raw
address 100 normalizes to 84 and resolves, while the raw address 5 falls
in no known section). -/
def envA : Env :=
  { rVersion := 1
    selfPath := some "self"
    linkMaps := [⟨"lib", 16⟩]
    getFile := fun p => if p == "lib" then some fileA else none }

/-! ### C4 — idempotence -/

/-- C4 counterexample: in process state envA, address 5 never resolves and
address 100 resolves against an object loaded at bias 16. The first
symbolize() call stores the object-relative address 84 in the resolved
frame; because an unresolved frame is still present, a second call on the
same buffer re-runs and rewrites that frame's addr field back to the raw
address 100, so running symbolize twice does not produce the same buffer
as running it once. This refutes the claim as stated. -/
theorem C4_counterexample :
    (symbolize envA LocationInfoMode.FULL false [] [5, 100]
      (symbolize envA LocationInfoMode.FULL false [] [5, 100]
        (List.replicate 2 {})).frames).frames ≠
    (symbolize envA LocationInfoMode.FULL false [] [5, 100]
      (List.replicate 2 {})).frames := by decide

/-- C4 (amended): a second symbolize() call is guaranteed to leave the
buffer untouched when every frame among the first addrs.size() slots is
already marked found: the call then returns in its first phase without
modifying, resolving or querying anything. -/
theorem C4_noop_when_all_found (env : Env) (mode : LocationInfoMode)
    (ce : Bool) (cache0 : List (Nat × List SymbolizedFrame))
    (addrs : List Nat) (frames : List SymbolizedFrame)
    (h : ∀ i < addrs.length, ((frames.getD i {}).found = true)) :
    symbolize env mode ce cache0 addrs frames =
      { frames := frames
        addrCount := addrs.length
        remaining := 0
        cache := cache0
        queryLog := []
        acc := idxRange 0 addrs.length } := by
  have h0 := countUnfound_eq_zero addrs.length frames h
  have h1 := clearUnfound_eq_self addrs.length frames h
  rw [symbolize]
  simp [h0, h1]

/-- C4 witness: a buffer whose single relevant frame is found is returned
unchanged by the second call. -/
theorem C4_noop_witness :
    symbolize envA LocationInfoMode.FULL false [] [5]
      [{ found := true, addr := 84 }] =
      { frames := [{ found := true, addr := 84 }]
        addrCount := 1
        remaining := 0
        cache := []
        queryLog := []
        acc := idxRange 0 1 } :=
  C4_noop_when_all_found envA LocationInfoMode.FULL false [] [5]
    [{ found := true, addr := 84 }] (by decide)

/-! ### C5 — unsupported linker version or unreadable self path -/

/-- C5: when the dynamic-linker debug interface reports an unsupported
version (r_version different from 1), or the executable's self path cannot
be read, symbolize() resolves nothing: every frame keeps its found flag
(unfound frames stay unfound), the symbol cache is untouched, and no
debug-info service is invoked; the call returns normally rather than
signaling an error. -/
theorem C5_linker_failure_noop (env : Env) (mode : LocationInfoMode)
    (ce : Bool) (cache0 : List (Nat × List SymbolizedFrame))
    (addrs : List Nat) (frames : List SymbolizedFrame)
    (h : env.rVersion ≠ 1 ∨ env.selfPath = none) :
    (∀ i, (((symbolize env mode ce cache0 addrs frames).frames.getD i {}).found
        = ((frames.getD i {}).found)) ) ∧
    (symbolize env mode ce cache0 addrs frames).cache = cache0 ∧
    (symbolize env mode ce cache0 addrs frames).queryLog = [] := by
  have hr : symbolize env mode ce cache0 addrs frames =
      { frames := clearUnfound addrs.length frames
        addrCount := addrs.length
        remaining := countUnfound addrs.length frames
        cache := cache0
        queryLog := []
        acc := idxRange 0 addrs.length } := by
    rw [symbolize]
    by_cases h0 : countUnfound addrs.length frames = 0
    · simp [h0]
    · rcases h with h1 | h1 <;> simp [h0, h1]
  rw [hr]
  exact ⟨fun i => clearUnfound_getD_found addrs.length frames i, rfl, rfl⟩

/-- A process state whose dynamic-linker debug interface reports an
unsupported version. -/
def envBadVersion : Env :=
  { rVersion := 0
    selfPath := some "self"
    linkMaps := [⟨"lib", 16⟩]
    getFile := fun _ => none }

/-- C5 witness: with r_version = 0 a buffer of one unfound frame keeps its
found flags, cache and query log untouched. -/
theorem C5_witness :
    (envBadVersion.rVersion ≠ 1 ∨ envBadVersion.selfPath = none) ∧
    (∀ i, (((symbolize envBadVersion LocationInfoMode.FULL false [] [5]
          [({} : SymbolizedFrame)]).frames.getD i {}).found
        = (([({} : SymbolizedFrame)].getD i {}).found))) ∧
    ((symbolize envBadVersion LocationInfoMode.FULL false [] [5]
          [({} : SymbolizedFrame)]).cache = [] ∧
      (symbolize envBadVersion LocationInfoMode.FULL false [] [5]
          [({} : SymbolizedFrame)]).queryLog = []) :=
  ⟨Or.inl (by decide),
   C5_linker_failure_noop envBadVersion LocationInfoMode.FULL false [] [5]
     [({} : SymbolizedFrame)] (Or.inl (by decide))⟩

/-! ### C1 — oversized cache hit -/

/-- Unfold lemma for one step of the inner per-address loop. -/
theorem innerLoop_succ (file : ElfFileModel) (lAddr : Nat)
    (mode : LocationInfoMode) (ce : Bool) (frameCount fuel i : Nat)
    (s : SymState) :
    innerLoop file lAddr mode ce frameCount (fuel + 1) i s =
      if i < s.addrCount ∧ s.remaining ≠ 0 then
        innerLoop file lAddr mode ce frameCount fuel
          (innerBody file lAddr mode ce frameCount i s).1
          (innerBody file lAddr mode ce frameCount i s).2
      else s := rfl

/-- Unfold lemma for one step of the outer per-object loop. -/
theorem outerLoop_cons (env : Env) (self : String) (mode : LocationInfoMode)
    (ce : Bool) (frameCount : Nat) (m : LinkMapEntry)
    (rest : List LinkMapEntry) (s : SymState) :
    outerLoop env self mode ce frameCount (m :: rest) s =
      if s.remaining ≠ 0 then
        outerLoop env self mode ce frameCount rest
          (match env.getFile (objPath m self) with
           | none => s
           | some file =>
               innerLoop file m.l_addr mode ce frameCount (s.addrCount + 1) 0 s)
      else s := rfl

/-- With a single pending address whose cache entry is too large for the
remaining slack, one inner-loop iteration consults the cache, skips the
hit, and changes nothing but the access log. -/
theorem c1_innerBody_skip (file : ElfFileModel) (lAddr : Nat)
    (mode : LocationInfoMode) (n a : Nat)
    (cache0 : List (Nat × List SymbolizedFrame)) (g : List SymbolizedFrame)
    (S : SymState)
    (hhit : cacheFind cache0 a = some g)
    (hc1 : 1 ≤ countFrames g)
    (hbig : n - 1 < countFrames g - 1)
    (hF : S.frames = { addr := a } :: List.replicate (n - 1) ({} : SymbolizedFrame))
    (hAC : S.addrCount = 1) (hC : S.cache = cache0) :
    innerBody file lAddr mode true n 0 S = (1, { S with acc := S.acc ++ [0] }) := by
  have hfr : S.frames.getD 0 {} = { addr := a } := by rw [hF]; rfl
  have hcz : ¬ (countFrames g = 0) := by omega
  have hle : ¬ (countFrames g - 1 ≤ n - S.addrCount) := by
    rw [hAC]; omega
  rw [innerBody]
  simp only [hfr, hC, hAC, if_true, hhit]
  simp [hcz, hle, hAC]
  intro hcon
  exfalso
  omega

/-- The inner loop for one object leaves the C1 state untouched apart from
the access log. -/
theorem c1_innerLoop_skip (file : ElfFileModel) (lAddr : Nat)
    (mode : LocationInfoMode) (n a : Nat)
    (cache0 : List (Nat × List SymbolizedFrame)) (g : List SymbolizedFrame)
    (S : SymState)
    (hhit : cacheFind cache0 a = some g)
    (hc1 : 1 ≤ countFrames g)
    (hbig : n - 1 < countFrames g - 1)
    (hF : S.frames = { addr := a } :: List.replicate (n - 1) ({} : SymbolizedFrame))
    (hAC : S.addrCount = 1) (hR : S.remaining = 1) (hC : S.cache = cache0) :
    innerLoop file lAddr mode true n 2 0 S = { S with acc := S.acc ++ [0] } := by
  rw [show (2 : Nat) = 1 + 1 from rfl, innerLoop_succ]
  rw [if_pos ⟨by omega, by omega⟩]
  rw [c1_innerBody_skip file lAddr mode n a cache0 g S hhit hc1 hbig hF hAC hC]
  rw [show (1 : Nat) = 0 + 1 from rfl, innerLoop_succ]
  rw [if_neg]
  simp [hAC]

/-- The outer loop, run from the C1 state, skips the cache hit at every
loaded object: frames, cache and query log are unchanged. -/
theorem c1_outerLoop_skip (env : Env) (self : String)
    (mode : LocationInfoMode) (n a : Nat)
    (cache0 : List (Nat × List SymbolizedFrame)) (g : List SymbolizedFrame)
    (hhit : cacheFind cache0 a = some g)
    (hc1 : 1 ≤ countFrames g)
    (hbig : n - 1 < countFrames g - 1) :
    ∀ (maps : List LinkMapEntry) (S : SymState),
      S.frames = { addr := a } :: List.replicate (n - 1) ({} : SymbolizedFrame) →
      S.addrCount = 1 → S.remaining = 1 → S.cache = cache0 → S.queryLog = [] →
      ((outerLoop env self mode true n maps S).frames = S.frames ∧
       (outerLoop env self mode true n maps S).queryLog = [] ∧
       (outerLoop env self mode true n maps S).cache = cache0) := by
  intro maps
  induction maps with
  | nil =>
      intro S hF hAC hR hC hQ
      exact ⟨rfl, hQ, hC⟩
  | cons m rest ih =>
      intro S hF hAC hR hC hQ
      rw [outerLoop_cons, if_pos (by omega)]
      cases hgf : env.getFile (objPath m self) with
      | none => exact ih S hF hAC hR hC hQ
      | some file =>
          have h2 : S.addrCount + 1 = 2 := by omega
          simp only [hgf, h2]
          rw [c1_innerLoop_skip file m.l_addr mode n a cache0 g S hhit hc1 hbig hF hAC hR hC]
          exact ih _ hF hAC hR hC hQ

/-- countUnfound examines no frame when the address count is 0. -/
theorem countUnfound_zero (l : List SymbolizedFrame) : countUnfound 0 l = 0 := by
  cases l <;> rfl

/-- clearUnfound touches no frame when the address count is 0. -/
theorem clearUnfound_zero (l : List SymbolizedFrame) : clearUnfound 0 l = l := by
  cases l <;> rfl

/-- countUnfound over a single pending default frame. -/
theorem countUnfound_one_replicate (n : Nat) (hn : 1 ≤ n) :
    countUnfound 1 (List.replicate n ({} : SymbolizedFrame)) = 1 := by
  cases n with
  | zero => omega
  | succ m => simp [List.replicate_succ, countUnfound, countUnfound_zero]

/-- clearUnfound over default frames is the identity. -/
theorem clearUnfound_one_replicate (n : Nat) :
    clearUnfound 1 (List.replicate n ({} : SymbolizedFrame)) =
      List.replicate n ({} : SymbolizedFrame) := by
  cases n with
  | zero => rfl
  | succ m => simp [List.replicate_succ, clearUnfound, clearUnfound_zero]

/-- Writing back the single original address into the cleared buffer. -/
theorem assignAddrs_single (a : Nat) (n : Nat) (hn : 1 ≤ n) :
    assignAddrs [a] (List.replicate n ({} : SymbolizedFrame)) =
      { addr := a } :: List.replicate (n - 1) ({} : SymbolizedFrame) := by
  cases n with
  | zero => omega
  | succ m =>
      simp only [List.replicate_succ, assignAddrs, Nat.add_sub_cancel]

/-- C1 (amended): a cache hit whose inline-frame count exceeds the
remaining slack (frameCount - addrCount) is skipped outright — symbolize()
does not fall back to uncached resolution for that address in the same
pass. The address's frame is left with found = false even when the address
maps into a loaded object's known section, and no debug-info service is
invoked for it; the cache is unchanged. -/
theorem C1_oversized_cache_hit_skips (env : Env) (mode : LocationInfoMode)
    (n a : Nat) (cache0 : List (Nat × List SymbolizedFrame))
    (g : List SymbolizedFrame)
    (hn : 1 ≤ n) (hhit : cacheFind cache0 a = some g)
    (hc1 : 1 ≤ countFrames g) (hbig : n - 1 < countFrames g - 1) :
    (((symbolize env mode true cache0 [a]
        (List.replicate n ({} : SymbolizedFrame))).frames.getD 0 {}).found = false) ∧
    (symbolize env mode true cache0 [a]
        (List.replicate n ({} : SymbolizedFrame))).queryLog = [] ∧
    (symbolize env mode true cache0 [a]
        (List.replicate n ({} : SymbolizedFrame))).cache = cache0 := by
  have hcu := countUnfound_one_replicate n hn
  have hcl := clearUnfound_one_replicate n
  rw [symbolize]
  simp only [List.length_singleton, List.length_replicate, hcu, hcl]
  split
  · omega
  · split
    · refine ⟨?_, rfl, rfl⟩
      cases n with
      | zero => rfl
      | succ m => simp [List.replicate_succ]
    · cases hsp : env.selfPath with
      | none =>
          refine ⟨?_, rfl, rfl⟩
          cases n with
          | zero => rfl
          | succ m => simp [List.replicate_succ]
      | some self =>
          have hassign := assignAddrs_single a n hn
          simp only [hassign]
          have hout := c1_outerLoop_skip env self mode n a cache0 g hhit hc1 hbig
            env.linkMaps
            { frames := { addr := a } :: List.replicate (n - 1) ({} : SymbolizedFrame)
              addrCount := 1
              remaining := 1
              cache := cache0
              queryLog := []
              acc := idxRange 0 1 ++ idxRange 0 1 }
            rfl rfl rfl rfl rfl
          refine ⟨?_, hout.2.1, hout.2.2⟩
          rw [hout.1]
          rfl

/-- C1 counterexample: in process state envA the raw address 100 maps into
the loaded object's known section (object-relative address 84). A first
symbolize() call with a 4-slot buffer resolves it together with two inline
frames and caches a 3-frame group. A second call with a 2-slot buffer hits
that cache entry, whose 2 inline frames exceed the remaining slack of 1;
the hit is skipped and — contrary to the claim — the Symbolizer does not
degrade to uncached resolution: the frame ends the call with
found = false. -/
theorem C1_counterexample :
    (fileA.hasSection (usub64 100 16) = true) ∧
    (((symbolize envA LocationInfoMode.FULL_WITH_INLINE true
        (symbolize envA LocationInfoMode.FULL_WITH_INLINE true [] [100]
          (List.replicate 4 {})).cache
        [100] (List.replicate 2 {})).frames.getD 0 {}).found = false) := by
  decide

/-- A cached frame group with one real and two inline frames, padded to
the fixed cache-array size. -/
def gBig : List SymbolizedFrame :=
  [{ found := true, addr := 84, name := some "g" },
   { found := true, addr := 84, name := some "h" },
   { found := true, addr := 84, name := some "f" }] ++
  List.replicate 3 ({} : SymbolizedFrame)

/-- A symbol cache holding the oversized group for address 100. -/
def cacheBig : List (Nat × List SymbolizedFrame) := [(100, gBig)]

/-- C1 witness: with a 2-slot buffer the 3-frame cache entry for address
100 is skipped and the frame stays unresolved. -/
theorem C1_witness :
    (1 ≤ 2 ∧ cacheFind cacheBig 100 = some gBig ∧
      1 ≤ countFrames gBig ∧ 2 - 1 < countFrames gBig - 1) ∧
    ((((symbolize envA LocationInfoMode.FULL_WITH_INLINE true cacheBig [100]
        (List.replicate 2 ({} : SymbolizedFrame))).frames.getD 0 {}).found = false) ∧
      (symbolize envA LocationInfoMode.FULL_WITH_INLINE true cacheBig [100]
        (List.replicate 2 ({} : SymbolizedFrame))).queryLog = [] ∧
      (symbolize envA LocationInfoMode.FULL_WITH_INLINE true cacheBig [100]
        (List.replicate 2 ({} : SymbolizedFrame))).cache = cacheBig) :=
  ⟨⟨by decide, by decide, by decide, by decide⟩,
   C1_oversized_cache_hit_skips envA LocationInfoMode.FULL_WITH_INLINE 2 100
     cacheBig gBig (by decide) (by decide) (by decide) (by decide)⟩

/-! ### C8 — guard pages of the alternate stack -/

/-- C8: a successful allocateStack yields nonempty inaccessible guard
areas at both ends of the mmap region (the first page and the trailing
partial-page region reaching the region's end), with the usable stack
lying strictly between them and overlapping neither; and every failure —
mapping failure, guard pages not fitting, either mprotect call failing,
a non-positive page size, or a getcontext/swapcontext failure — makes the
alternate-stack printer abort and return silently with no output. -/
theorem C8_guard_pages (menv : MmapEnv) (pageSize : Nat) (gs : GuardedStack)
    (hp : 0 < pageSize) (h : allocateStack menv pageSize = some gs) :
    (0 < gs.guardLoLen ∧ 0 < gs.guardHiLen ∧ 0 < gs.stackSize ∧
     gs.guardLoPtr = 0 ∧
     gs.guardLoPtr + gs.guardLoLen ≤ gs.stackSp ∧
     gs.stackSp + gs.stackSize ≤ gs.guardHiPtr ∧
     gs.guardHiPtr + gs.guardHiLen = kMmapStackSize) ∧
    (∀ (menv2 : MmapEnv) (ps2 : Nat),
       (menv2.mmapOk = false ∨ menv2.mprotectLoOk = false ∨
        menv2.mprotectHiOk = false ∨ kMmapStackSize ≤ ps2 * 2) →
       allocateStack menv2 ps2 = none) ∧
    (∀ (p : Int) (menv3 : MmapEnv) (g sw : Bool) (out : List Char),
       (p ≤ 0 ∨ g = false ∨ allocateStack menv3 p.toNat = none) →
       unsafePrintSymbolizedStackTrace p menv3 g sw out = []) := by
  refine ⟨?_, ?_, ?_⟩
  · rw [allocateStack] at h
    split at h
    · exact absurd h (by simp)
    · split at h
      · exact absurd h (by simp)
      · split at h
        · exact absurd h (by simp)
        · split at h
          · exact absurd h (by simp)
          · rename_i hmm hsz hlo hhi
            obtain rfl : gs = _ := (Option.some.inj h).symm
            have hq : 2 ≤ (kMmapStackSize - 1) / pageSize := by
              rw [Nat.le_div_iff_mul_le hp]
              omega
            have hub2 : 2 * pageSize ≤ ((kMmapStackSize - 1) / pageSize) * pageSize :=
              Nat.mul_le_mul_right pageSize hq
            have hub3 : ((kMmapStackSize - 1) / pageSize) * pageSize ≤ kMmapStackSize - 1 :=
              Nat.div_mul_le_self (kMmapStackSize - 1) pageSize
            dsimp only
            refine ⟨hp, by omega, by omega, rfl, by omega, by omega, by omega⟩
  · intro menv2 ps2 hfail
    rw [allocateStack]
    rcases hfail with h1 | h1 | h1 | h1 <;>
      simp [h1, ite_self]
  · intro p menv3 g sw out hfail
    rw [unsafePrintSymbolizedStackTrace]
    rcases hfail with h1 | h1 | h1
    · simp [h1]
    · simp [h1]
    · by_cases hp2 : p ≤ 0
      · simp [hp2]
      · by_cases hg : g
        · simp [hp2, hg, h1]
        · simp [hp2, hg]

/-- C8 witness: with all system calls succeeding and a 4096-byte page the
guard pages bracket the usable stack, and a failed mapping yields no
output. -/
theorem C8_witness :
    (0 < 4096 ∧
      allocateStack ⟨true, true, true⟩ 4096 =
        some { guardLoPtr := 0, guardLoLen := 4096, guardHiPtr := 1044480,
               guardHiLen := 4096, stackSp := 4096, stackSize := 1040384 }) ∧
    ((0 < (4096 : Nat)) ∧
      allocateStack ⟨false, true, true⟩ 4096 = none ∧
      unsafePrintSymbolizedStackTrace 4096 ⟨false, true, true⟩ true true
        "x".toList = []) :=
  ⟨⟨by decide, by decide⟩,
   by
    have h := C8_guard_pages ⟨true, true, true⟩ 4096
      { guardLoPtr := 0, guardLoLen := 4096, guardHiPtr := 1044480,
        guardHiLen := 4096, stackSp := 4096, stackSize := 1040384 }
      (by decide) (by decide)
    refine ⟨by decide, ?_, ?_⟩
    · exact h.2.1 ⟨false, true, true⟩ 4096 (Or.inl rfl)
    · exact h.2.2 4096 ⟨false, true, true⟩ true true "x".toList
        (Or.inr (Or.inr (h.2.1 ⟨false, true, true⟩ ((4096 : Int)).toNat (Or.inl rfl))))⟩

/-! ### Hex digit arithmetic for the AddressFormatter -/

/-- The most-significant-first hex digit list of a number (empty for 0),
the mathematical counterpart of the digit loop. -/
def hexDigits (n : Nat) : List Nat :=
  if h : n = 0 then [] else hexDigits (n / 16) ++ [n % 16]
termination_by n
decreasing_by exact Nat.div_lt_self (Nat.pos_of_ne_zero h) (by norm_num)

/-- hexDigits of 0 is empty. -/
theorem hexDigits_zero : hexDigits 0 = [] := by
  rw [hexDigits]
  simp

/-- hexDigits of a nonzero number peels off the least significant digit. -/
theorem hexDigits_pos (n : Nat) (h : n ≠ 0) :
    hexDigits n = hexDigits (n / 16) ++ [n % 16] := by
  rw [hexDigits]
  simp [h]

/-- A number below 16^k has at most k hex digits. -/
theorem hexDigits_length_le (k : Nat) : ∀ n < 16 ^ k, (hexDigits n).length ≤ k := by
  induction k with
  | zero =>
      intro n hn
      interval_cases n
      simp [hexDigits_zero]
  | succ m ih =>
      intro n hn
      by_cases h : n = 0
      · simp [h, hexDigits_zero]
      · rw [hexDigits_pos n h]
        have hdiv : n / 16 < 16 ^ m := by
          rw [Nat.div_lt_iff_lt_mul (by norm_num : 0 < 16)]
          calc n < 16 ^ (m + 1) := hn
            _ = 16 ^ m * 16 := by ring
        have := ih (n / 16) hdiv
        simp only [List.length_append, List.length_singleton]
        omega

/-- Every hex digit is below 16. -/
theorem hexDigits_mem_lt (n : Nat) : ∀ d ∈ hexDigits n, d < 16 := by
  induction n using Nat.strong_induction_on with
  | _ n ih =>
      intro d hd
      by_cases h : n = 0
      · rw [h, hexDigits_zero] at hd
        simp at hd
      · rw [hexDigits_pos n h] at hd
        rcases List.mem_append.mp hd with hmem | hmem
        · exact ih (n / 16) (Nat.div_lt_self (Nat.pos_of_ne_zero h) (by norm_num)) d hmem
        · simp at hmem
          rw [hmem]
          exact Nat.mod_lt n (by norm_num)

/-- Parsing a digit string extended by one digit. -/
theorem parseHex_append_singleton (l : List Char) (c : Char) :
    parseHex (l ++ [c]) = parseHex l * 16 + hexVal c := by
  simp [parseHex, List.foldl_append]

/-- The digit table round-trips through the parser. -/
theorem hexVal_hexChar : ∀ d, d < 16 → hexVal (hexChar d) = d := by decide

/-- Parsing the rendered digits of n recovers n. -/
theorem parseHex_hexDigits (n : Nat) :
    parseHex ((hexDigits n).map hexChar) = n := by
  induction n using Nat.strong_induction_on with
  | _ n ih =>
      by_cases h : n = 0
      · rw [h, hexDigits_zero]
        rfl
      · rw [hexDigits_pos n h]
        rw [List.map_append, List.map_singleton, parseHex_append_singleton]
        rw [ih (n / 16) (Nat.div_lt_self (Nat.pos_of_ne_zero h) (by norm_num))]
        rw [hexVal_hexChar (n % 16) (Nat.mod_lt n (by norm_num))]
        omega

/-- Leading zero padding does not change the parsed value. -/
theorem parseHex_replicate_zero (k : Nat) (l : List Char) :
    parseHex (List.replicate k '0' ++ l) = parseHex l := by
  induction k with
  | zero => simp
  | succ m ih =>
      have h0 : (0 : Nat) * 16 + hexVal '0' = 0 := by decide
      simp only [List.replicate_succ, List.cons_append, parseHex, List.foldl_cons] at *
      rw [h0]
      exact ih

/-- The digit loop writes exactly the hex digits of n, most significant
first, ending at position p; everything before the digit area and at or
past p+1 is untouched. -/
theorem writeHexLoop_eq (p : Nat) : ∀ (buf : List Char) (n : Nat),
    n < 16 ^ (p + 1) → p < buf.length →
    writeHexLoop n p buf =
      buf.take (p + 1 - (hexDigits n).length) ++
        (hexDigits n).map hexChar ++ buf.drop (p + 1) := by
  induction p with
  | zero =>
      intro buf n hn hp
      rw [writeHexLoop]
      by_cases h : n = 0
      · rw [if_pos h, h, hexDigits_zero]
        simp only [List.length_nil, Nat.sub_zero, List.map_nil, List.nil_append,
          List.append_nil]
        exact (List.take_append_drop (0 + 1) buf).symm
      · simp only [h, if_false]
        have hdiv : n / 16 = 0 := Nat.div_eq_of_lt (by simpa using hn)
        rw [hexDigits_pos n h, hdiv, hexDigits_zero]
        simp only [List.nil_append, List.length_singleton, Nat.sub_self,
          List.take_zero, List.map_singleton]
        rw [List.set_eq_take_append_cons_drop]
        simp [hp]
  | succ q ih =>
      intro buf n hn hp
      rw [writeHexLoop]
      by_cases h : n = 0
      · rw [if_pos h, h, hexDigits_zero]
        simp only [List.length_nil, Nat.sub_zero, List.map_nil, List.nil_append,
          List.append_nil]
        exact (List.take_append_drop (q + 1 + 1) buf).symm
      · simp only [h, if_false]
        have hdiv : n / 16 < 16 ^ (q + 1) := by
          rw [Nat.div_lt_iff_lt_mul (by norm_num : 0 < 16)]
          calc n < 16 ^ (q + 1 + 1) := hn
            _ = 16 ^ (q + 1) * 16 := by ring
        have hlen : q < (buf.set (q + 1) (hexChar (n % 16))).length := by
          rw [List.length_set]
          omega
        rw [ih (buf.set (q + 1) (hexChar (n % 16))) (n / 16) hdiv hlen]
        have hlenle := hexDigits_length_le (q + 1) (n / 16) hdiv
        have htake : (buf.set (q + 1) (hexChar (n % 16))).take
            (q + 1 - (hexDigits (n / 16)).length) =
            buf.take (q + 1 - (hexDigits (n / 16)).length) := by
          rw [List.set_take]
          exact List.set_eq_of_length_le (by rw [List.length_take]; omega)
        have hdrop : (buf.set (q + 1) (hexChar (n % 16))).drop (q + 1) =
            hexChar (n % 16) :: buf.drop (q + 2) := by
          rw [List.drop_set]
          simp only [Nat.lt_irrefl, if_false, Nat.sub_self]
          rw [List.set_eq_take_append_cons_drop]
          have : 0 < (buf.drop (q + 1)).length := by
            rw [List.length_drop]
            omega
          simp only [this, if_true, List.take_zero, List.nil_append]
          rw [List.drop_drop]
        rw [htake, hdrop, hexDigits_pos n h]
        simp only [List.length_append, List.length_singleton, List.map_append,
          List.map_singleton]
        have harith : q + 1 + 1 - ((hexDigits (n / 16)).length + 1) =
            q + 1 - (hexDigits (n / 16)).length := by omega
        rw [harith]
        simp

/-- AddressFormatter::format leaves the buffer as: untouched prefix,
digits of the address ending at position 17, NUL at position 18. -/
theorem format_buf_eq (buf : List Char) (x : Nat)
    (hlen : buf.length = 19) (hx : x < usize) :
    (AddressFormatter.format buf x).2 =
      buf.take (18 - (hexDigits x).length) ++
        (hexDigits x).map hexChar ++ [Char.ofNat 0] := by
  have hx18 : x < 16 ^ 18 := by
    calc x < usize := hx
      _ ≤ 16 ^ 18 := by norm_num [usize]
  have hset : (buf.set 18 (Char.ofNat 0)).length = 19 := by
    rw [List.length_set, hlen]
  rw [AddressFormatter.format]
  simp only
  rw [writeHexLoop_eq 17 (buf.set 18 (Char.ofNat 0)) x hx18 (by omega)]
  have hlenx : (hexDigits x).length ≤ 16 :=
    hexDigits_length_le 16 x (by simpa [usize] using hx)
  have htake : (buf.set 18 (Char.ofNat 0)).take (17 + 1 - (hexDigits x).length) =
      buf.take (18 - (hexDigits x).length) := by
    rw [List.set_take]
    exact List.set_eq_of_length_le (by rw [List.length_take]; omega)
  have hdrop : (buf.set 18 (Char.ofNat 0)).drop (17 + 1) = [Char.ofNat 0] := by
    rw [List.drop_set]
    simp only [Nat.lt_irrefl, if_false, Nat.sub_self]
    rw [List.set_eq_take_append_cons_drop]
    have h1 : 0 < (buf.drop 18).length := by
      rw [List.length_drop]
      omega
    simp only [h1, if_true, List.take_zero, List.nil_append]
    rw [List.drop_drop]
    have : buf.drop (18 + 1) = [] := List.drop_eq_nil_of_le (by omega)
    rw [this]
  rw [htake, hdrop]

/-- The view returned by format: untouched prefix then the digits, 18
characters in all. -/
theorem format_view_eq (buf : List Char) (x : Nat)
    (hlen : buf.length = 19) (hx : x < usize) :
    (AddressFormatter.format buf x).1 =
      buf.take (18 - (hexDigits x).length) ++ (hexDigits x).map hexChar := by
  have hlenx : (hexDigits x).length ≤ 16 :=
    hexDigits_length_le 16 x (by simpa [usize] using hx)
  have hbody := format_buf_eq buf x hlen hx
  have hview : (AddressFormatter.format buf x).1 =
      (AddressFormatter.format buf x).2.take 18 := rfl
  rw [hview, hbody]
  have hlenpre : (buf.take (18 - (hexDigits x).length) ++
      (hexDigits x).map hexChar).length = 18 := by
    rw [List.length_append, List.length_take, List.length_map, hlen]
    omega
  rw [List.append_assoc, List.take_append_eq_append_take]
  rw [List.length_take, hlen]
  have h1 : min (18 - (hexDigits x).length) 19 = 18 - (hexDigits x).length := by
    omega
  rw [h1]
  have h2 : buf.take (18 - (hexDigits x).length) =
      (buf.take (18 - (hexDigits x).length)).take 18 := by
    rw [List.take_take]
    congr 1
    omega
  conv_rhs => rw [h2]
  congr 1
  rw [List.take_append_eq_append_take, List.length_map]
  have h3 : ((hexDigits x).map hexChar).take (18 - (18 - (hexDigits x).length)) =
      (hexDigits x).map hexChar := by
    apply List.take_of_length_le
    rw [List.length_map]
    omega
  rw [List.take_of_length_le (by rw [List.length_map]; omega)]
  have h4 : 18 - (18 - (hexDigits x).length) - (hexDigits x).length = 0 := by
    omega
  rw [h4]
  simp

/-- The constructed buffer template: "0x", sixteen '0' digits, NUL. -/
theorem initBuf_decomp :
    AddressFormatter.initBuf =
      '0' :: 'x' :: (List.replicate 16 '0' ++ [Char.ofNat 0]) := by decide

/-- A prefix of the fresh buffer is "0x" followed by zero padding. -/
theorem initBuf_take (m : Nat) (hm : m ≤ 16) :
    AddressFormatter.initBuf.take (m + 2) = '0' :: 'x' :: List.replicate m '0' := by
  rw [initBuf_decomp]
  rw [show m + 2 = (m + 1) + 1 from rfl, List.take_succ_cons, List.take_succ_cons]
  rw [List.take_append_of_le_length (by simpa using hm), List.take_replicate]
  rw [inf_eq_left.mpr hm]

/-- Every hex digit renders to a character of the digit table. -/
theorem hexChar_mem_table : ∀ d, d < 16 → hexChar d ∈ kHexChars.toList := by decide

/-- C6: on a freshly constructed AddressFormatter, format(x) for any
representable address x (including 0 and the maximum value) returns a
fixed-width 18-character view: the "0x" prefix followed by exactly 16
lowercase hex digit characters, zero padded, and parsing those 16 digits
back as a hex integer recovers x. -/
theorem C6_format_roundtrip (x : Nat) (hx : x < usize) :
    ((AddressFormatter.format AddressFormatter.initBuf x).1).length = 18 ∧
    ((AddressFormatter.format AddressFormatter.initBuf x).1).take 2 = ['0', 'x'] ∧
    (∀ c ∈ ((AddressFormatter.format AddressFormatter.initBuf x).1).drop 2,
        c ∈ kHexChars.toList) ∧
    parseHex (((AddressFormatter.format AddressFormatter.initBuf x).1).drop 2) = x := by
  have hlen19 : AddressFormatter.initBuf.length = 19 := by decide
  have hlenx : (hexDigits x).length ≤ 16 :=
    hexDigits_length_le 16 x (by simpa [usize] using hx)
  have hview := format_view_eq AddressFormatter.initBuf x hlen19 hx
  have h18 : 18 - (hexDigits x).length = (16 - (hexDigits x).length) + 2 := by omega
  rw [h18, initBuf_take (16 - (hexDigits x).length) (by omega)] at hview
  rw [hview]
  refine ⟨?_, ?_, ?_, ?_⟩
  · simp only [List.cons_append, List.length_cons, List.length_append,
      List.length_replicate, List.length_map]
    omega
  · rfl
  · intro c hc
    simp only [List.cons_append, List.drop_succ_cons, List.drop_zero] at hc
    rcases List.mem_append.mp hc with hmem | hmem
    · rw [List.eq_of_mem_replicate hmem]
      decide
    · rcases List.mem_map.mp hmem with ⟨d, hd, hdc⟩
      rw [← hdc]
      exact hexChar_mem_table d (hexDigits_mem_lt x d hd)
  · simp only [List.cons_append, List.drop_succ_cons, List.drop_zero]
    rw [parseHex_replicate_zero, parseHex_hexDigits]

/-- C6 witness: the maximum representable address round-trips. -/
theorem C6_witness :
    (usizeMax < usize) ∧
    (((AddressFormatter.format AddressFormatter.initBuf usizeMax).1).length = 18 ∧
     ((AddressFormatter.format AddressFormatter.initBuf usizeMax).1).take 2 = ['0', 'x'] ∧
     (∀ c ∈ ((AddressFormatter.format AddressFormatter.initBuf usizeMax).1).drop 2,
         c ∈ kHexChars.toList) ∧
     parseHex (((AddressFormatter.format AddressFormatter.initBuf usizeMax).1).drop 2)
        = usizeMax) :=
  ⟨by norm_num [usizeMax, usize], C6_format_roundtrip usizeMax (by norm_num [usizeMax, usize])⟩

/-- C10: format never re-zeroes the pad area — the buffer is initialized
to the zero template only at construction, and format(x) overwrites only
the digit positions of x (the tail of the digit area) plus the NUL slot.
Concretely: positions in front of the digit area of x keep their previous
content; a fresh instance renders 0x1f fully zero padded; calling
format(0x1) next on the same instance leaves the previous call's '1' high
digit in the view, yielding "0x0000000000000011" instead of a zero-padded
1; and SafeStackTracePrinter's address-only loop, which reuses one
instance across all frames, prints exactly that stale line for the
address list [0x1f, 0x1]. -/
theorem C10_stale_high_digits (x k j : Nat) (buf : List Char)
    (hx : x < 16 ^ k) (hk : k ≤ 16) (hbuf : buf.length = 19) (hj : j < 18 - k) :
    ((AddressFormatter.format buf x).2.getD j ' ' = buf.getD j ' ') ∧
    ((AddressFormatter.format AddressFormatter.initBuf 31).1
        = "0x000000000000001f".toList) ∧
    ((AddressFormatter.format
        (AddressFormatter.format AddressFormatter.initBuf 31).2 1).1
        = "0x0000000000000011".toList) ∧
    ((AddressFormatter.format
        (AddressFormatter.format AddressFormatter.initBuf 31).2 1).1
        ≠ "0x0000000000000001".toList) ∧
    (printStackTrace (some [31, 1]) false [] =
      { out := kSafeModeLiteral.toList ++
          "0x000000000000001f\n0x0000000000000011\n".toList
        flushed := true }) := by
  refine ⟨?_, by decide, by decide, by decide, by decide⟩
  have hxu : x < usize := by
    calc x < 16 ^ k := hx
      _ ≤ 16 ^ 16 := Nat.pow_le_pow_right (by norm_num) hk
      _ = usize := by norm_num [usize]
  have hlenx : (hexDigits x).length ≤ k := hexDigits_length_le k x hx
  rw [format_buf_eq buf x hbuf hxu, List.append_assoc]
  have hjA : j < (buf.take (18 - (hexDigits x).length)).length := by
    rw [List.length_take, hbuf, inf_eq_left.mpr (by omega : 18 - (hexDigits x).length ≤ 19)]
    omega
  rw [List.getD_append _ _ _ j hjA]
  conv_rhs => rw [← List.take_append_drop (18 - (hexDigits x).length) buf]
  rw [List.getD_append _ _ _ j hjA]

/-- C10 witness: instantiating the locality clause at x = 5 (one digit),
position 3 of a fresh buffer. -/
theorem C10_witness :
    ((5 : Nat) < 16 ^ 1 ∧ (1 : Nat) ≤ 16 ∧
      AddressFormatter.initBuf.length = 19 ∧ (3 : Nat) < 18 - 1) ∧
    ((AddressFormatter.format AddressFormatter.initBuf 5).2.getD 3 ' '
        = AddressFormatter.initBuf.getD 3 ' ') :=
  ⟨⟨by norm_num, by norm_num, by decide, by norm_num⟩,
   (C10_stale_high_digits 5 1 3 AddressFormatter.initBuf (by norm_num) (by norm_num)
      (by decide) (by norm_num)).1⟩

/-! ### C7 — SafeStackTracePrinter output shape -/

/-- Well-formedness of a formatter buffer: 19 characters, "0x" prefix,
hex digit characters in the 16-character digit area. Holds for the fresh
buffer and is preserved by every format call. -/
def bufWF (buf : List Char) : Prop :=
  buf.length = 19 ∧ buf.take 2 = ['0', 'x'] ∧
  (∀ c ∈ (buf.drop 2).take 16, c ∈ kHexChars.toList)

/-- One printed address line: 19 characters, "0x" prefix, 16 hex digit
characters, terminating newline. -/
def addrLineOk (s : List Char) : Prop :=
  s.length = 19 ∧ s.take 2 = ['0', 'x'] ∧
  (∀ c ∈ (s.drop 2).take 16, c ∈ kHexChars.toList) ∧ s.getD 18 ' ' = '\n'

/-- The view of a format call on a well-formed buffer, extended by one
character, is 19 characters: "0x", 16 hex digits, then that character. -/
theorem view_append_facts (buf : List Char) (x : Nat) (tailc : Char)
    (hw : bufWF buf) (hx : x < usize) :
    (((AddressFormatter.format buf x).1 ++ [tailc]).length = 19) ∧
    (((AddressFormatter.format buf x).1 ++ [tailc]).take 2 = ['0', 'x']) ∧
    (∀ c ∈ ((((AddressFormatter.format buf x).1 ++ [tailc])).drop 2).take 16,
        c ∈ kHexChars.toList) ∧
    (((AddressFormatter.format buf x).1 ++ [tailc]).getD 18 ' ' = tailc) := by
  obtain ⟨hlen, htk2, hmem⟩ := hw
  have hlenx : (hexDigits x).length ≤ 16 :=
    hexDigits_length_le 16 x (by simpa [usize] using hx)
  have hview := format_view_eq buf x hlen hx
  have hAlen : (buf.take (18 - (hexDigits x).length)).length =
      18 - (hexDigits x).length := by
    rw [List.length_take, hlen,
      inf_eq_left.mpr (by omega : 18 - (hexDigits x).length ≤ 19)]
  have hvlen : ((AddressFormatter.format buf x).1).length = 18 := by
    rw [hview, List.length_append, hAlen, List.length_map]
    omega
  refine ⟨?_, ?_, ?_, ?_⟩
  · rw [List.length_append, hvlen]
    rfl
  · rw [List.take_append_of_le_length (by omega), hview]
    rw [List.take_append_of_le_length (by omega)]
    rw [List.take_take, inf_eq_left.mpr (by omega : 2 ≤ 18 - (hexDigits x).length)]
    exact htk2
  · intro c hc
    rw [List.drop_append_of_le_length (by omega), hview,
      List.drop_append_of_le_length (by omega)] at hc
    rw [List.drop_take] at hc
    have h162 : 18 - (hexDigits x).length - 2 = 16 - (hexDigits x).length := by omega
    rw [h162, List.append_assoc, List.take_append_eq_append_take] at hc
    have hlen2 : ((buf.drop 2).take (16 - (hexDigits x).length)).length =
        16 - (hexDigits x).length := by
      rw [List.length_take, List.length_drop, hlen,
        inf_eq_left.mpr (by omega : 16 - (hexDigits x).length ≤ 19 - 2)]
    rw [List.take_of_length_le (le_trans (le_of_eq hlen2) (by omega))] at hc
    rcases List.mem_append.mp hc with hcm | hcm
    · have : (buf.drop 2).take (16 - (hexDigits x).length) =
          ((buf.drop 2).take 16).take (16 - (hexDigits x).length) := by
        rw [List.take_take, inf_eq_left.mpr (by omega : 16 - (hexDigits x).length ≤ 16)]
      rw [this] at hcm
      exact hmem c (List.take_subset _ _ hcm)
    · rw [hlen2] at hcm
      have hmap : (((hexDigits x).map hexChar ++ [tailc])).take
          (16 - (16 - (hexDigits x).length)) = (hexDigits x).map hexChar := by
        rw [List.take_append_of_le_length (by rw [List.length_map]; omega)]
        exact List.take_of_length_le (by rw [List.length_map]; omega)
      rw [hmap] at hcm
      rcases List.mem_map.mp hcm with ⟨d, hd, hdc⟩
      rw [← hdc]
      exact hexChar_mem_table d (hexDigits_mem_lt x d hd)
  · rw [List.getD_append_right _ _ _ 18 (by omega), hvlen]
    rfl

/-- Every format call on a well-formed buffer leaves it well-formed: the
new buffer is the 18-character view plus the NUL byte. -/
theorem format_preserves_bufWF (buf : List Char) (x : Nat)
    (hw : bufWF buf) (hx : x < usize) :
    bufWF (AddressFormatter.format buf x).2 := by
  have hbody := format_buf_eq buf x hw.1 hx
  have hview := format_view_eq buf x hw.1 hx
  have hfacts := view_append_facts buf x (Char.ofNat 0) hw hx
  have hb2 : (AddressFormatter.format buf x).2 =
      (AddressFormatter.format buf x).1 ++ [Char.ofNat 0] := by
    rw [hbody, hview, List.append_assoc]
  rw [bufWF, hb2]
  exact ⟨hfacts.1, hfacts.2.1, hfacts.2.2.1⟩

/-- The address-only loop produces exactly one well-formed 19-character
line per address. -/
theorem addrLinesLoop_ok : ∀ (addrs : List Nat) (buf : List Char),
    bufWF buf → (∀ a ∈ addrs, a < usize) →
    ∃ chunks : List (List Char),
      addrLinesLoop addrs buf = chunks.flatten ∧
      chunks.length = addrs.length ∧ ∀ ch ∈ chunks, addrLineOk ch := by
  intro addrs
  induction addrs with
  | nil =>
      intro buf hw ha
      exact ⟨[], rfl, rfl, by simp⟩
  | cons a rest ih =>
      intro buf hw ha
      have hax : a < usize := ha a (by simp)
      have hrest : ∀ b ∈ rest, b < usize := fun b hb => ha b (by simp [hb])
      obtain ⟨chunks, hflat, hlen, hok⟩ :=
        ih (AddressFormatter.format buf a).2 (format_preserves_bufWF buf a hw hax) hrest
      refine ⟨((AddressFormatter.format buf a).1 ++ ['\n']) :: chunks, ?_, ?_, ?_⟩
      · rw [addrLinesLoop]
        simp only [List.flatten_cons, List.append_assoc, List.cons_append,
          List.nil_append]
        rw [hflat]
      · simp [hlen]
      · intro ch hch
        rcases List.mem_cons.mp hch with hch | hch
        · rw [hch]
          have hfacts := view_append_facts buf a '\n' hw hax
          exact ⟨hfacts.1, hfacts.2.1, hfacts.2.2.1, hfacts.2.2.2⟩
        · exact hok ch hch

/-- C7: printStackTrace prints exactly the fixed error literal (and
nothing else) when capture fails; prints the safe-mode notice followed by
exactly one 19-character "0x"-prefixed hex address line per captured frame
when capture succeeds and symbolize is false; and the sink is flushed
before returning on every path. -/
theorem C7_printStackTrace_shape (capture : Option (List Nat))
    (addrs : List Nat) (symOut : List Char) (b : Bool)
    (haddrs : ∀ a ∈ addrs, a < usize) :
    (printStackTrace none b symOut =
        { out := kErrorLiteral.toList, flushed := true }) ∧
    ((printStackTrace capture b symOut).flushed = true) ∧
    (∃ chunks : List (List Char),
       printStackTrace (some addrs) false symOut =
         { out := kSafeModeLiteral.toList ++ chunks.flatten, flushed := true } ∧
       chunks.length = addrs.length ∧ ∀ ch ∈ chunks, addrLineOk ch) := by
  have hwinit : bufWF AddressFormatter.initBuf := ⟨by decide, by decide, by decide⟩
  refine ⟨rfl, ?_, ?_⟩
  · cases capture with
    | none => rfl
    | some l =>
        rw [printStackTrace]
        split <;> rfl
  · obtain ⟨chunks, hflat, hlen, hok⟩ :=
      addrLinesLoop_ok addrs AddressFormatter.initBuf hwinit haddrs
    refine ⟨chunks, ?_, hlen, hok⟩
    rw [printStackTrace]
    simp only [if_false, Bool.false_eq_true]
    rw [hflat]

/-- C7 witness: the two-address capture prints the notice and two
well-formed address lines; a failed capture prints the error literal. -/
theorem C7_witness :
    (∀ a ∈ [(31 : Nat), 1], a < usize) ∧
    ((printStackTrace none true [] =
        { out := kErrorLiteral.toList, flushed := true }) ∧
     ((printStackTrace (some [31, 1]) true []).flushed = true) ∧
     (∃ chunks : List (List Char),
        printStackTrace (some [31, 1]) false [] =
          { out := kSafeModeLiteral.toList ++ chunks.flatten, flushed := true } ∧
        chunks.length = [(31 : Nat), 1].length ∧ ∀ ch ∈ chunks, addrLineOk ch)) :=
  ⟨by decide,
   C7_printStackTrace_shape (some [31, 1]) [31, 1] [] true (by decide)⟩

theorem countFrames_nil : countFrames [] = 0 := rfl

theorem countFrames_replicate (k : Nat) :
    countFrames (List.replicate k ({} : SymbolizedFrame)) = 0 := by
  cases k with
  | zero => rfl
  | succ m => simp [countFrames, List.replicate_succ, List.takeWhile_cons]

theorem countFrames_append_found (l1 l2 : List SymbolizedFrame)
    (h : ∀ f ∈ l1, f.found = true) :
    countFrames (l1 ++ l2) = l1.length + countFrames l2 := by
  induction l1 with
  | nil => simp [countFrames]
  | cons f fs ih =>
      have hf : f.found = true := h f (by simp)
      have hrest : ∀ g ∈ fs, g.found = true := fun g hg => h g (by simp [hg])
      simp [countFrames, List.takeWhile_cons, hf] at *
      rw [ih hrest]
      omega


theorem copy_set_eq (L : List SymbolizedFrame) (n mI : Nat)
    (afr rf : SymbolizedFrame) :
    (([afr] ++ List.take (mI ⊓ L.length) (List.take mI L) ++
        List.drop (1 + mI ⊓ L.length)
          (afr :: List.replicate (n - 1) ({} : SymbolizedFrame))).set 0 rf)
      = rf :: (List.take mI L ++
          List.replicate (n - 1 - mI ⊓ L.length) ({} : SymbolizedFrame)) := by
  have h1 : List.take (mI ⊓ L.length) (List.take mI L) = List.take mI L := by
    apply List.take_of_length_le
    rw [List.length_take]
  have h2 : List.drop (1 + mI ⊓ L.length)
      (afr :: List.replicate (n - 1) ({} : SymbolizedFrame))
      = List.replicate (n - 1 - mI ⊓ L.length) ({} : SymbolizedFrame) := by
    rw [Nat.add_comm 1 (mI ⊓ L.length), List.drop_succ_cons, List.drop_replicate]
  rw [h1, h2]
  simp

theorem window_count (L : List SymbolizedFrame) (mI k : Nat)
    (hLf : ∀ f ∈ L, f.found = true) :
    countFrames (List.take mI
      (List.take mI L ++ List.replicate k ({} : SymbolizedFrame)))
      = mI ⊓ L.length := by
  rw [List.take_append_eq_append_take, List.take_take, inf_idem, List.take_replicate]
  rw [countFrames_append_found _ _ (fun f hf => hLf f (List.take_subset _ _ hf))]
  rw [countFrames_replicate, List.length_take, Nat.add_zero]

theorem rotate_result (L : List SymbolizedFrame) (mI k : Nat)
    (rf : SymbolizedFrame) :
    rotateRange (rf :: (List.take mI L ++ List.replicate k ({} : SymbolizedFrame)))
        0 1 (1 + mI ⊓ L.length)
      = List.take mI L ++ rf :: List.replicate k ({} : SymbolizedFrame) := by
  rw [rotateRange]
  simp only [List.take_zero, List.drop_succ_cons, List.drop_zero, List.nil_append,
    Nat.add_sub_cancel_left, Nat.sub_zero]
  have h1 : List.take (mI ⊓ L.length)
      (List.take mI L ++ List.replicate k ({} : SymbolizedFrame))
      = List.take mI L := by
    rw [← List.length_take mI L, List.take_left]
  have h2 : List.drop (1 + mI ⊓ L.length)
      (rf :: (List.take mI L ++ List.replicate k ({} : SymbolizedFrame)))
      = List.replicate k ({} : SymbolizedFrame) := by
    rw [Nat.add_comm 1 (mI ⊓ L.length), List.drop_succ_cons,
      List.drop_append_eq_append_drop, List.length_take]
    rw [List.drop_eq_nil_of_le (by rw [List.length_take]), Nat.sub_self, List.drop_zero,
      List.nil_append]
  rw [h1, h2]
  simp

theorem group_result (L : List SymbolizedFrame) (mI k w : Nat)
    (rf : SymbolizedFrame) (hw : (List.take mI L).length = w)
    (hw5 : w ≤ kMaxInlineLocationInfoPerFrame) :
    mkCacheGroup (List.take mI L ++ rf :: List.replicate k ({} : SymbolizedFrame)) 0 w
      = List.take mI L ++ rf ::
          List.replicate (kCachedFrames - (w + 1)) ({} : SymbolizedFrame) := by
  rw [mkCacheGroup, List.drop_zero]
  have hmin : min (w + 1) kCachedFrames = w + 1 := by
    simp only [kCachedFrames, kMaxInlineLocationInfoPerFrame] at *
    omega
  rw [hmin, List.take_append_eq_append_take, hw]
  rw [List.take_of_length_le (by rw [hw]; omega)]
  have h1 : w + 1 - w = 1 := by omega
  rw [h1]
  have h2 : List.take 1 (rf :: List.replicate k ({} : SymbolizedFrame)) = [rf] := by
    rw [List.take_succ_cons, List.take_zero]
  rw [h2]
  simp

theorem innerBody_resolve_inline (file : ElfFileModel) (lAddr : Nat)
    (mode : LocationInfoMode) (ce : Bool) (n a : Nat)
    (cache0 : List (Nat × List SymbolizedFrame)) (acc0 : List Nat) (sym : Nat)
    (hm : mode = LocationInfoMode.FULL_WITH_INLINE) (hn : 1 < n)
    (hnc : (if ce then cacheFind cache0 a else none) = none)
    (hsec : file.hasSection (usub64 a lAddr) = true)
    (hdef : file.defByAddr (usub64 a lAddr) = some sym)
    (hLf : ∀ f ∈ file.dwInline (usub64 a lAddr), f.found = true) :
    ∃ acc1 acc2 : List Nat,
      innerBody file lAddr mode ce n 0
        { frames := { addr := a } :: List.replicate (n - 1) ({} : SymbolizedFrame)
          addrCount := 1, remaining := 1, cache := cache0, queryLog := [], acc := acc0 } =
      (kMaxInlineLocationInfoPerFrame ⊓ (n - 1) ⊓ (file.dwInline (usub64 a lAddr)).length + 1,
       if ce = true then
         { frames := (file.dwInline (usub64 a lAddr)).take
              (kMaxInlineLocationInfoPerFrame ⊓ (n - 1)) ++
              { found := true, addr := usub64 a lAddr, name := file.symbolName sym,
                location := file.dwLocation (usub64 a lAddr) LocationInfoMode.FULL_WITH_INLINE,
                fileId := some file.id } ::
              List.replicate
                (n - 1 - kMaxInlineLocationInfoPerFrame ⊓ (n - 1) ⊓
                  (file.dwInline (usub64 a lAddr)).length) ({} : SymbolizedFrame)
           addrCount := 1 + kMaxInlineLocationInfoPerFrame ⊓ (n - 1) ⊓
              (file.dwInline (usub64 a lAddr)).length
           remaining := 0
           cache := cacheSet cache0 a
             ((file.dwInline (usub64 a lAddr)).take
                (kMaxInlineLocationInfoPerFrame ⊓ (n - 1)) ++
              { found := true, addr := usub64 a lAddr, name := file.symbolName sym,
                location := file.dwLocation (usub64 a lAddr) LocationInfoMode.FULL_WITH_INLINE,
                fileId := some file.id } ::
              List.replicate (kCachedFrames -
                (kMaxInlineLocationInfoPerFrame ⊓ (n - 1) ⊓
                  (file.dwInline (usub64 a lAddr)).length + 1)) ({} : SymbolizedFrame))
           queryLog := [usub64 a lAddr]
           acc := acc1 }
       else
         { frames := (file.dwInline (usub64 a lAddr)).take
              (kMaxInlineLocationInfoPerFrame ⊓ (n - 1)) ++
              { found := true, addr := usub64 a lAddr, name := file.symbolName sym,
                location := file.dwLocation (usub64 a lAddr) LocationInfoMode.FULL_WITH_INLINE,
                fileId := some file.id } ::
              List.replicate
                (n - 1 - kMaxInlineLocationInfoPerFrame ⊓ (n - 1) ⊓
                  (file.dwInline (usub64 a lAddr)).length) ({} : SymbolizedFrame)
           addrCount := 1 + kMaxInlineLocationInfoPerFrame ⊓ (n - 1) ⊓
              (file.dwInline (usub64 a lAddr)).length
           remaining := 0
           cache := cache0
           queryLog := [usub64 a lAddr]
           acc := acc2 }) := by
  subst hm
  apply Exists.intro
  apply Exists.intro
  rw [innerBody]
  simp only [List.getD_cons_zero, Bool.false_eq_true, if_false, hnc, hsec, hdef,
    setSymbolizedFrame, copyInto, List.take_succ_cons, List.take_zero,
    List.take_length, List.length_take, if_true, eq_self_iff_true, true_and, hn,
    List.drop_succ_cons, Nat.zero_add, Nat.add_zero, List.nil_append]
  rw [copy_set_eq]
  simp only [List.drop_succ_cons, List.drop_zero]
  rw [window_count _ _ _ hLf]
  rw [rotate_result]
  rw [group_result _ _ _ _ _ (List.length_take _ _)
    (le_trans inf_le_left inf_le_left)]

theorem group_result_direct (rf : SymbolizedFrame) (k : Nat) :
    mkCacheGroup (rf :: List.replicate k ({} : SymbolizedFrame)) 0 0
      = rf :: List.replicate (kCachedFrames - 1) ({} : SymbolizedFrame) := by
  rw [mkCacheGroup, List.drop_zero]
  have hmin : min (0 + 1) kCachedFrames = 1 := by
    simp [kCachedFrames, kMaxInlineLocationInfoPerFrame]
  rw [hmin]
  have h2 : List.take 1 (rf :: List.replicate k ({} : SymbolizedFrame)) = [rf] := by
    rw [List.take_succ_cons, List.take_zero]
  rw [h2]
  simp

theorem innerBody_resolve_direct (file : ElfFileModel) (lAddr : Nat)
    (mode : LocationInfoMode) (ce : Bool) (n a : Nat)
    (cache0 : List (Nat × List SymbolizedFrame)) (acc0 : List Nat) (sym : Nat)
    (hnm : ¬ (mode = LocationInfoMode.FULL_WITH_INLINE ∧ 1 < n))
    (hnc : (if ce then cacheFind cache0 a else none) = none)
    (hsec : file.hasSection (usub64 a lAddr) = true)
    (hdef : file.defByAddr (usub64 a lAddr) = some sym) :
    ∃ acc1 acc2 : List Nat,
      innerBody file lAddr mode ce n 0
        { frames := { addr := a } :: List.replicate (n - 1) ({} : SymbolizedFrame)
          addrCount := 1, remaining := 1, cache := cache0, queryLog := [], acc := acc0 } =
      (1,
       if ce = true then
         { frames :=
             { found := true, addr := usub64 a lAddr, name := file.symbolName sym,
               location := file.dwLocation (usub64 a lAddr) mode,
               fileId := some file.id } ::
               List.replicate (n - 1) ({} : SymbolizedFrame)
           addrCount := 1
           remaining := 0
           cache := cacheSet cache0 a
             ({ found := true, addr := usub64 a lAddr, name := file.symbolName sym,
                location := file.dwLocation (usub64 a lAddr) mode,
                fileId := some file.id } ::
                List.replicate (kCachedFrames - 1) ({} : SymbolizedFrame))
           queryLog := [usub64 a lAddr]
           acc := acc1 }
       else
         { frames :=
             { found := true, addr := usub64 a lAddr, name := file.symbolName sym,
               location := file.dwLocation (usub64 a lAddr) mode,
               fileId := some file.id } ::
               List.replicate (n - 1) ({} : SymbolizedFrame)
           addrCount := 1
           remaining := 0
           cache := cache0
           queryLog := [usub64 a lAddr]
           acc := acc2 }) := by
  apply Exists.intro
  apply Exists.intro
  rw [innerBody]
  simp only [List.getD_cons_zero, Bool.false_eq_true, if_false, hnc, hsec, hdef,
    setSymbolizedFrame, if_true, eq_self_iff_true, hnm, List.set_cons_zero,
    Nat.zero_add, Nat.add_zero, List.nil_append, Nat.sub_self]
  rw [group_result_direct]

def resMI (mode : LocationInfoMode) (n : Nat) : Nat :=
  if mode = LocationInfoMode.FULL_WITH_INLINE ∧ 1 < n then
    kMaxInlineLocationInfoPerFrame ⊓ (n - 1)
  else 0

def resW (file : ElfFileModel) (lAddr : Nat) (mode : LocationInfoMode)
    (a n : Nat) : Nat :=
  resMI mode n ⊓ (file.dwInline (usub64 a lAddr)).length

def resRealFrame (file : ElfFileModel) (lAddr : Nat) (mode : LocationInfoMode)
    (a sym : Nat) : SymbolizedFrame :=
  { found := true, addr := usub64 a lAddr, name := file.symbolName sym,
    location := file.dwLocation (usub64 a lAddr) mode, fileId := some file.id }

def resFrames (file : ElfFileModel) (lAddr : Nat) (mode : LocationInfoMode)
    (a n sym : Nat) : List SymbolizedFrame :=
  (file.dwInline (usub64 a lAddr)).take (resMI mode n) ++
    resRealFrame file lAddr mode a sym ::
      List.replicate (n - 1 - resW file lAddr mode a n) ({} : SymbolizedFrame)

def resGroup (file : ElfFileModel) (lAddr : Nat) (mode : LocationInfoMode)
    (a n sym : Nat) : List SymbolizedFrame :=
  (file.dwInline (usub64 a lAddr)).take (resMI mode n) ++
    resRealFrame file lAddr mode a sym ::
      List.replicate (kCachedFrames - (resW file lAddr mode a n + 1))
        ({} : SymbolizedFrame)

theorem symbolize_single_eq (env : Env) (mode : LocationInfoMode) (ce : Bool)
    (cache0 : List (Nat × List SymbolizedFrame)) (m : LinkMapEntry) (self : String)
    (file : ElfFileModel) (a n sym : Nat)
    (hmaps : env.linkMaps = [m]) (hrv : env.rVersion = 1)
    (hsp : env.selfPath = some self)
    (hgf : env.getFile (objPath m self) = some file)
    (hn : 1 ≤ n)
    (hnc : (if ce then cacheFind cache0 a else none) = none)
    (hsec : file.hasSection (usub64 a m.l_addr) = true)
    (hdef : file.defByAddr (usub64 a m.l_addr) = some sym)
    (hLf : ∀ f ∈ file.dwInline (usub64 a m.l_addr), f.found = true) :
    ∃ acc1 acc2 : List Nat,
      symbolize env mode ce cache0 [a] (List.replicate n ({} : SymbolizedFrame)) =
      (if ce = true then
        { frames := resFrames file m.l_addr mode a n sym
          addrCount := 1 + resW file m.l_addr mode a n
          remaining := 0
          cache := cacheSet cache0 a (resGroup file m.l_addr mode a n sym)
          queryLog := [usub64 a m.l_addr]
          acc := acc1 }
      else
        { frames := resFrames file m.l_addr mode a n sym
          addrCount := 1 + resW file m.l_addr mode a n
          remaining := 0
          cache := cache0
          queryLog := [usub64 a m.l_addr]
          acc := acc2 }) := by
  by_cases hc : mode = LocationInfoMode.FULL_WITH_INLINE ∧ 1 < n
  · obtain ⟨hm1, hn1⟩ := hc
    subst hm1
    obtain ⟨A1, A2, hbody⟩ := innerBody_resolve_inline file m.l_addr
      LocationInfoMode.FULL_WITH_INLINE ce n a cache0 (idxRange 0 1 ++ idxRange 0 1)
      sym rfl hn1 hnc hsec hdef hLf
    refine ⟨A1, A2, ?_⟩
    rw [symbolize]
    simp only [List.length_singleton, List.length_replicate,
      countUnfound_one_replicate n hn, clearUnfound_one_replicate,
      assignAddrs_single a n hn, hrv, hsp, hmaps, ne_eq]
    rw [if_neg (by norm_num), if_neg (by norm_num)]
    rw [outerLoop_cons, if_pos (by simp), hgf]
    simp only []
    rw [innerLoop_succ, if_pos ⟨by simp, by simp⟩, hbody]
    simp only []
    rw [show (1 : Nat) = 0 + 1 from rfl, innerLoop_succ,
      if_neg (fun h => h.2 (by cases ce <;> rfl))]
    rw [outerLoop]
    simp only [resFrames, resGroup, resRealFrame, resW, resMI, eq_self_iff_true,
      true_and, hn1, if_true]
  · obtain ⟨A1, A2, hbody⟩ := innerBody_resolve_direct file m.l_addr mode ce n a
      cache0 (idxRange 0 1 ++ idxRange 0 1) sym hc hnc hsec hdef
    refine ⟨A1, A2, ?_⟩
    rw [symbolize]
    simp only [List.length_singleton, List.length_replicate,
      countUnfound_one_replicate n hn, clearUnfound_one_replicate,
      assignAddrs_single a n hn, hrv, hsp, hmaps, ne_eq]
    rw [if_neg (by norm_num), if_neg (by norm_num)]
    rw [outerLoop_cons, if_pos (by simp), hgf]
    simp only []
    rw [innerLoop_succ, if_pos ⟨by simp, by simp⟩, hbody]
    simp only []
    rw [show (1 : Nat) = 0 + 1 from rfl, innerLoop_succ,
      if_neg (fun h => h.2 (by cases ce <;> rfl))]
    rw [outerLoop]
    simp only [resFrames, resGroup, resRealFrame, resW, resMI, hc, if_false]
    simp only [List.take_zero, Nat.zero_sub, Nat.sub_zero, Nat.zero_add,
      Nat.add_zero, List.nil_append, Nat.zero_min]

theorem countFrames_cons_found (f : SymbolizedFrame) (l : List SymbolizedFrame)
    (hf : f.found = true) : countFrames (f :: l) = 1 + countFrames l := by
  simp [countFrames, List.takeWhile_cons, hf]
  omega

theorem moveBackward_self (l : List α) (i d : Nat) : moveBackward l i i d = l := by
  rw [moveBackward, Nat.sub_self]
  simp [List.take_append_drop]

theorem innerBody_replay (file : ElfFileModel) (lAddr : Nat)
    (mode : LocationInfoMode) (n a w : Nat)
    (cache1 : List (Nat × List SymbolizedFrame)) (acc0 : List Nat)
    (G : List SymbolizedFrame)
    (hhit : cacheFind cache1 a = some G)
    (hcount : countFrames G = w + 1)
    (hw : w ≤ n - 1) :
    ∃ acc1 : List Nat,
      innerBody file lAddr mode true n 0
        { frames := { addr := a } :: List.replicate (n - 1) ({} : SymbolizedFrame)
          addrCount := 1, remaining := 1, cache := cache1, queryLog := [], acc := acc0 } =
      (w + 1,
       { frames := G.take (w + 1) ++ List.replicate (n - 1 - w) ({} : SymbolizedFrame)
         addrCount := 1 + w
         remaining := 1
         cache := cache1
         queryLog := []
         acc := acc1 }) := by
  apply Exists.intro
  rw [innerBody]
  simp only [List.getD_cons_zero, Bool.false_eq_true, if_false, if_true, hhit,
    hcount, Nat.succ_ne_zero, Nat.add_sub_cancel, Nat.zero_add, Nat.add_zero]
  rw [if_pos hw]
  rw [moveBackward_self]
  rw [copyInto, List.take_zero, List.nil_append]
  rw [show (0 + (w + 1)) = w + 1 from by omega]
  rw [List.drop_succ_cons, List.drop_replicate]

theorem innerLoop_two_finish (file : ElfFileModel) (lAddr : Nat)
    (mode : LocationInfoMode) (ce : Bool) (fc : Nat) (S : SymState)
    (i2 : Nat) (S2 : SymState)
    (hgo : 0 < S.addrCount ∧ S.remaining ≠ 0)
    (hbody : innerBody file lAddr mode ce fc 0 S = (i2, S2))
    (hstop : ¬ (i2 < S2.addrCount ∧ S2.remaining ≠ 0)) :
    innerLoop file lAddr mode ce fc 2 0 S = S2 := by
  rw [show (2 : Nat) = 1 + 1 from rfl, innerLoop_succ, if_pos hgo, hbody]
  simp only []
  rw [show (1 : Nat) = 0 + 1 from rfl, innerLoop_succ, if_neg hstop]

theorem symbolize_single_replay (env : Env) (mode : LocationInfoMode)
    (cache1 : List (Nat × List SymbolizedFrame)) (m : LinkMapEntry)
    (self : String) (file : ElfFileModel) (a n w : Nat)
    (G : List SymbolizedFrame)
    (hmaps : env.linkMaps = [m]) (hrv : env.rVersion = 1)
    (hsp : env.selfPath = some self)
    (hgf : env.getFile (objPath m self) = some file)
    (hn : 1 ≤ n)
    (hhit : cacheFind cache1 a = some G)
    (hcount : countFrames G = w + 1)
    (hw : w ≤ n - 1) :
    ∃ acc1 : List Nat,
      symbolize env mode true cache1 [a] (List.replicate n ({} : SymbolizedFrame)) =
      { frames := G.take (w + 1) ++ List.replicate (n - 1 - w) ({} : SymbolizedFrame)
        addrCount := 1 + w
        remaining := 1
        cache := cache1
        queryLog := []
        acc := acc1 } := by
  obtain ⟨A1, hbody⟩ := innerBody_replay file m.l_addr mode n a w cache1
    (idxRange 0 1 ++ idxRange 0 1) G hhit hcount hw
  refine ⟨A1, ?_⟩
  rw [symbolize]
  simp only [List.length_singleton, List.length_replicate,
    countUnfound_one_replicate n hn, clearUnfound_one_replicate,
    assignAddrs_single a n hn, hrv, hsp, hmaps, ne_eq]
  rw [if_neg (by norm_num), if_neg (by norm_num)]
  rw [outerLoop_cons, if_pos (by simp), hgf]
  simp only []
  rw [innerLoop_two_finish file m.l_addr mode true n _ _ _ ⟨by simp, by simp⟩ hbody
    (by intro h; have h1 := h.1; simp only [] at h1; omega)]
  rw [outerLoop]

theorem resW_le (file : ElfFileModel) (lAddr : Nat) (mode : LocationInfoMode)
    (a n : Nat) : resW file lAddr mode a n ≤ n - 1 := by
  rw [resW, resMI]
  split
  · exact le_trans inf_le_left inf_le_right
  · simp

/-- C2: under FULL_WITH_INLINE, an address in a loaded object's section
that the debug info expands into k inline frames yields, when at least k
trailing scratch slots exist (k ≤ n - 1, with k also within the
per-address inline bound), exactly k+1 frames for that address: the k
inline frames in the order the debug-info service produced them
(innermost first), immediately followed by the real call-site frame; the
logical address count grows by exactly k. With fewer scratch slots the
expansion is truncated to min(inline count, per-address bound, n - 1),
and the frame buffer keeps its length n — nothing is written past its
end. The effective count kEff below is that minimum, so both the exact
and the truncated clauses are covered. -/
theorem C2_inline_expansion (env : Env) (ce : Bool) (m : LinkMapEntry)
    (self : String) (file : ElfFileModel) (a n sym : Nat)
    (hmaps : env.linkMaps = [m]) (hrv : env.rVersion = 1)
    (hsp : env.selfPath = some self)
    (hgf : env.getFile (objPath m self) = some file) (hn : 1 ≤ n)
    (hsec : file.hasSection (usub64 a m.l_addr) = true)
    (hdef : file.defByAddr (usub64 a m.l_addr) = some sym)
    (hLf : ∀ f ∈ file.dwInline (usub64 a m.l_addr), f.found = true) :
    ((symbolize env LocationInfoMode.FULL_WITH_INLINE ce [] [a]
        (List.replicate n ({} : SymbolizedFrame))).frames =
      (file.dwInline (usub64 a m.l_addr)).take
          (min (file.dwInline (usub64 a m.l_addr)).length
            (min kMaxInlineLocationInfoPerFrame (n - 1))) ++
        resRealFrame file m.l_addr LocationInfoMode.FULL_WITH_INLINE a sym ::
          List.replicate
            (n - 1 - min (file.dwInline (usub64 a m.l_addr)).length
              (min kMaxInlineLocationInfoPerFrame (n - 1))) ({} : SymbolizedFrame)) ∧
    ((symbolize env LocationInfoMode.FULL_WITH_INLINE ce [] [a]
        (List.replicate n ({} : SymbolizedFrame))).addrCount =
      1 + min (file.dwInline (usub64 a m.l_addr)).length
        (min kMaxInlineLocationInfoPerFrame (n - 1))) ∧
    ((symbolize env LocationInfoMode.FULL_WITH_INLINE ce [] [a]
        (List.replicate n ({} : SymbolizedFrame))).frames.length = n) := by
  obtain ⟨A1, A2, heq⟩ := symbolize_single_eq env LocationInfoMode.FULL_WITH_INLINE
    ce [] m self file a n sym hmaps hrv hsp hgf hn (by cases ce <;> rfl) hsec hdef hLf
  have hframes : (symbolize env LocationInfoMode.FULL_WITH_INLINE ce [] [a]
      (List.replicate n ({} : SymbolizedFrame))).frames =
      resFrames file m.l_addr LocationInfoMode.FULL_WITH_INLINE a n sym := by
    rw [heq]
    cases ce <;> rfl
  have haddr : (symbolize env LocationInfoMode.FULL_WITH_INLINE ce [] [a]
      (List.replicate n ({} : SymbolizedFrame))).addrCount =
      1 + resW file m.l_addr LocationInfoMode.FULL_WITH_INLINE a n := by
    rw [heq]
    cases ce <;> rfl
  have hWeq : resW file m.l_addr LocationInfoMode.FULL_WITH_INLINE a n =
      min (file.dwInline (usub64 a m.l_addr)).length
        (min kMaxInlineLocationInfoPerFrame (n - 1)) := by
    rw [resW, resMI]
    split
    · rename_i h
      omega
    · rename_i h
      have h1 : ¬ 1 < n := by simpa using h
      omega
  have hTake : (file.dwInline (usub64 a m.l_addr)).take
      (resMI LocationInfoMode.FULL_WITH_INLINE n) =
      (file.dwInline (usub64 a m.l_addr)).take
        (min (file.dwInline (usub64 a m.l_addr)).length
          (min kMaxInlineLocationInfoPerFrame (n - 1))) := by
    rw [List.take_eq_take, resMI]
    split
    · rename_i h
      omega
    · rename_i h
      have h1 : ¬ 1 < n := by simpa using h
      omega
  refine ⟨?_, ?_, ?_⟩
  · rw [hframes, resFrames, hTake, hWeq]
  · rw [haddr, hWeq]
  · rw [hframes]
    simp only [resFrames, List.length_append, List.length_cons, List.length_take,
      List.length_replicate, resW, resMI]
    split
    · rename_i h
      omega
    · rename_i h
      have h1 : ¬ 1 < n := by simpa using h
      omega

theorem cacheFind_singleton (a : Nat) (G : List SymbolizedFrame) :
    cacheFind [(a, G)] a = some G := by
  simp [cacheFind, List.find?_cons]

theorem countFrames_resGroup (file : ElfFileModel) (lAddr : Nat)
    (mode : LocationInfoMode) (a n sym : Nat)
    (hLf : ∀ f ∈ file.dwInline (usub64 a lAddr), f.found = true) :
    countFrames (resGroup file lAddr mode a n sym) =
      resW file lAddr mode a n + 1 := by
  rw [resGroup]
  rw [countFrames_append_found _ _
    (fun f hf => hLf f (List.take_subset _ _ hf))]
  rw [countFrames_cons_found _ _ rfl, countFrames_replicate, List.length_take,
    resW]

theorem resGroup_take (file : ElfFileModel) (lAddr : Nat)
    (mode : LocationInfoMode) (a n sym : Nat) :
    (resGroup file lAddr mode a n sym).take (resW file lAddr mode a n + 1) =
      (file.dwInline (usub64 a lAddr)).take (resMI mode n) ++
        [resRealFrame file lAddr mode a sym] := by
  rw [resGroup, List.take_append_eq_append_take, List.length_take]
  rw [List.take_of_length_le (by rw [List.length_take, resW]; omega)]
  rw [show resW file lAddr mode a n + 1 -
      resMI mode n ⊓ (file.dwInline (usub64 a lAddr)).length = 1 by rw [resW]; omega]
  rw [List.take_succ_cons, List.take_zero]

/-- C3: with the symbol cache enabled and a fixed process state, resolving
the same address in a second, separate symbolize() call replays the cache
entry populated by the first call: the resulting frame buffer and logical
address count are identical to the first call's (including the inline
frames in final display order), and the second call performs no
debug-info query at all — its query log is empty. -/
theorem C3_cache_replay (env : Env) (mode : LocationInfoMode)
    (m : LinkMapEntry) (self : String) (file : ElfFileModel) (a n sym : Nat)
    (hmaps : env.linkMaps = [m]) (hrv : env.rVersion = 1)
    (hsp : env.selfPath = some self)
    (hgf : env.getFile (objPath m self) = some file) (hn : 1 ≤ n)
    (hsec : file.hasSection (usub64 a m.l_addr) = true)
    (hdef : file.defByAddr (usub64 a m.l_addr) = some sym)
    (hLf : ∀ f ∈ file.dwInline (usub64 a m.l_addr), f.found = true) :
    ((symbolize env mode true
        (symbolize env mode true [] [a]
          (List.replicate n ({} : SymbolizedFrame))).cache [a]
        (List.replicate n ({} : SymbolizedFrame))).frames =
      (symbolize env mode true [] [a]
        (List.replicate n ({} : SymbolizedFrame))).frames) ∧
    ((symbolize env mode true
        (symbolize env mode true [] [a]
          (List.replicate n ({} : SymbolizedFrame))).cache [a]
        (List.replicate n ({} : SymbolizedFrame))).addrCount =
      (symbolize env mode true [] [a]
        (List.replicate n ({} : SymbolizedFrame))).addrCount) ∧
    ((symbolize env mode true
        (symbolize env mode true [] [a]
          (List.replicate n ({} : SymbolizedFrame))).cache [a]
        (List.replicate n ({} : SymbolizedFrame))).queryLog = []) := by
  obtain ⟨A1, A2, heq1⟩ := symbolize_single_eq env mode true [] m self file a n sym
    hmaps hrv hsp hgf hn rfl hsec hdef hLf
  have hres1 : symbolize env mode true [] [a]
      (List.replicate n ({} : SymbolizedFrame)) =
      { frames := resFrames file m.l_addr mode a n sym
        addrCount := 1 + resW file m.l_addr mode a n
        remaining := 0
        cache := cacheSet [] a (resGroup file m.l_addr mode a n sym)
        queryLog := [usub64 a m.l_addr]
        acc := A1 } := by
    rw [heq1]
    rfl
  have hcache1 : (symbolize env mode true [] [a]
      (List.replicate n ({} : SymbolizedFrame))).cache =
      [(a, resGroup file m.l_addr mode a n sym)] := by
    rw [hres1]
    rfl
  obtain ⟨A3, heq2⟩ := symbolize_single_replay env mode
    [(a, resGroup file m.l_addr mode a n sym)] m self file a n
    (resW file m.l_addr mode a n) (resGroup file m.l_addr mode a n sym)
    hmaps hrv hsp hgf hn (cacheFind_singleton a _)
    (countFrames_resGroup file m.l_addr mode a n sym hLf)
    (resW_le file m.l_addr mode a n)
  rw [hcache1, heq2, hres1]
  refine ⟨?_, ?_, rfl⟩
  · simp only [resGroup_take, resFrames, List.append_assoc, List.cons_append,
      List.nil_append]
  · rfl

/-- C2 witness: in process state envA, address 100 expands into its two
inline frames plus the real frame in a 4-slot buffer, and the address
count becomes 3. -/
theorem C2_witness :
    (envA.linkMaps = [⟨"lib", 16⟩] ∧ envA.rVersion = 1 ∧
      envA.selfPath = some "self" ∧
      envA.getFile (objPath ⟨"lib", 16⟩ "self") = some fileA ∧
      (1 : Nat) ≤ 4 ∧ fileA.hasSection (usub64 100 16) = true ∧
      fileA.defByAddr (usub64 100 16) = some 0 ∧
      (∀ f ∈ fileA.dwInline (usub64 100 16), f.found = true)) ∧
    (((symbolize envA LocationInfoMode.FULL_WITH_INLINE true [] [100]
        (List.replicate 4 ({} : SymbolizedFrame))).frames =
      (fileA.dwInline (usub64 100 16)).take
          (min (fileA.dwInline (usub64 100 16)).length
            (min kMaxInlineLocationInfoPerFrame (4 - 1))) ++
        resRealFrame fileA 16 LocationInfoMode.FULL_WITH_INLINE 100 0 ::
          List.replicate
            (4 - 1 - min (fileA.dwInline (usub64 100 16)).length
              (min kMaxInlineLocationInfoPerFrame (4 - 1))) ({} : SymbolizedFrame)) ∧
    ((symbolize envA LocationInfoMode.FULL_WITH_INLINE true [] [100]
        (List.replicate 4 ({} : SymbolizedFrame))).addrCount =
      1 + min (fileA.dwInline (usub64 100 16)).length
        (min kMaxInlineLocationInfoPerFrame (4 - 1))) ∧
    ((symbolize envA LocationInfoMode.FULL_WITH_INLINE true [] [100]
        (List.replicate 4 ({} : SymbolizedFrame))).frames.length = 4)) :=
  ⟨⟨rfl, rfl, rfl, rfl, by decide, by decide, by decide, by decide⟩,
   C2_inline_expansion envA true ⟨"lib", 16⟩ "self" fileA 100 4 0
     rfl rfl rfl rfl (by decide) (by decide) (by decide) (by decide)⟩

/-- C3 witness: in process state envA, resolving address 100 twice with a
4-slot buffer replays the cached group identically and makes no debug-info
query on the second call. -/
theorem C3_witness :
    (envA.linkMaps = [⟨"lib", 16⟩] ∧ envA.rVersion = 1 ∧
      envA.selfPath = some "self" ∧
      envA.getFile (objPath ⟨"lib", 16⟩ "self") = some fileA ∧
      (1 : Nat) ≤ 4 ∧ fileA.hasSection (usub64 100 16) = true ∧
      fileA.defByAddr (usub64 100 16) = some 0 ∧
      (∀ f ∈ fileA.dwInline (usub64 100 16), f.found = true)) ∧
    (((symbolize envA LocationInfoMode.FULL_WITH_INLINE true
        (symbolize envA LocationInfoMode.FULL_WITH_INLINE true [] [100]
          (List.replicate 4 ({} : SymbolizedFrame))).cache [100]
        (List.replicate 4 ({} : SymbolizedFrame))).frames =
      (symbolize envA LocationInfoMode.FULL_WITH_INLINE true [] [100]
        (List.replicate 4 ({} : SymbolizedFrame))).frames) ∧
    ((symbolize envA LocationInfoMode.FULL_WITH_INLINE true
        (symbolize envA LocationInfoMode.FULL_WITH_INLINE true [] [100]
          (List.replicate 4 ({} : SymbolizedFrame))).cache [100]
        (List.replicate 4 ({} : SymbolizedFrame))).addrCount =
      (symbolize envA LocationInfoMode.FULL_WITH_INLINE true [] [100]
        (List.replicate 4 ({} : SymbolizedFrame))).addrCount) ∧
    ((symbolize envA LocationInfoMode.FULL_WITH_INLINE true
        (symbolize envA LocationInfoMode.FULL_WITH_INLINE true [] [100]
          (List.replicate 4 ({} : SymbolizedFrame))).cache [100]
        (List.replicate 4 ({} : SymbolizedFrame))).queryLog = [])) :=
  ⟨⟨rfl, rfl, rfl, rfl, by decide, by decide, by decide, by decide⟩,
   C3_cache_replay envA LocationInfoMode.FULL_WITH_INLINE ⟨"lib", 16⟩ "self"
     fileA 100 4 0 rfl rfl rfl rfl (by decide) (by decide) (by decide) (by decide)⟩

theorem mem_idxRange_lt {j a b : Nat} (h : j ∈ idxRange a b) : j < b := by
  rw [idxRange] at h
  rcases List.mem_map.mp h with ⟨k, hk, rfl⟩
  rw [List.mem_range] at hk
  omega

theorem countFrames_le_length (l : List SymbolizedFrame) :
    countFrames l ≤ l.length := by
  rw [countFrames]
  exact List.Sublist.length_le (List.takeWhile_sublist _)

theorem clearUnfound_length (n : Nat) (fs : List SymbolizedFrame) :
    (clearUnfound n fs).length = fs.length := by
  induction fs generalizing n with
  | nil => cases n <;> rfl
  | cons f fs ih =>
      cases n with
      | zero => rfl
      | succ m => simp [clearUnfound, ih]

theorem assignAddrs_length (as : List Nat) (fs : List SymbolizedFrame) :
    (assignAddrs as fs).length = fs.length := by
  induction as generalizing fs with
  | nil => cases fs <;> rfl
  | cons a as ih =>
      cases fs with
      | nil => rfl
      | cons f fs => simp [assignAddrs, ih]

theorem countUnfound_pos_len (n : Nat) (fs : List SymbolizedFrame)
    (h : countUnfound n fs ≠ 0) : 1 ≤ n := by
  cases n with
  | zero =>
      exfalso
      exact h (countUnfound_zero fs)
  | succ m => omega

theorem moveBackward_length (l : List α) (first last dlast : Nat)
    (h1 : first ≤ last) (h2 : last ≤ dlast) (h3 : dlast ≤ l.length) :
    (moveBackward l first last dlast).length = l.length := by
  rw [moveBackward]
  simp only [List.length_append, List.length_take, List.length_drop]
  omega

theorem copyInto_length (src : List α) (len : Nat) (dst : List α) (pos : Nat)
    (h1 : len ≤ src.length) (h2 : pos + len ≤ dst.length) :
    (copyInto src len dst pos).length = dst.length := by
  rw [copyInto]
  simp only [List.length_append, List.length_take, List.length_drop]
  omega

theorem rotateRange_length (l : List α) (first middle last : Nat)
    (h1 : first ≤ middle) (h2 : middle ≤ last) (h3 : last ≤ l.length) :
    (rotateRange l first middle last).length = l.length := by
  rw [rotateRange]
  simp only [List.length_append, List.length_take, List.length_drop]
  omega

def SymInv (fc : Nat) (s : SymState) : Prop :=
  s.frames.length = fc ∧ 1 ≤ s.addrCount ∧ s.addrCount ≤ fc ∧
    ∀ j ∈ s.acc, j < fc

theorem acc_bound_append {fc : Nat} {l1 l2 : List Nat}
    (h1 : ∀ j ∈ l1, j < fc) (h2 : ∀ j ∈ l2, j < fc) :
    ∀ j ∈ l1 ++ l2, j < fc := by
  intro j hj
  rcases List.mem_append.mp hj with h | h
  · exact h1 j h
  · exact h2 j h

theorem acc_bound_single {fc i : Nat} (h : i < fc) : ∀ j ∈ [i], j < fc := by
  intro j hj
  simp at hj
  omega

theorem acc_bound_idxRange {fc a b : Nat} (h : b ≤ fc) :
    ∀ j ∈ idxRange a b, j < fc :=
  fun _ hj => lt_of_lt_of_le (mem_idxRange_lt hj) h

theorem setSymbolizedFrame_snd_len (file : ElfFileModel) (ad : Nat)
    (mode : LocationInfoMode) (mI : Nat) :
    (setSymbolizedFrame file ad mode mI).2.length ≤ mI := by
  rw [setSymbolizedFrame]
  cases file.defByAddr ad with
  | none => simp
  | some sym =>
      simp only [List.length_take]
      exact inf_le_left

theorem countFrames_take_le (l : List SymbolizedFrame) (m : Nat) :
    countFrames (l.take m) ≤ m :=
  le_trans (countFrames_le_length _) (by rw [List.length_take]; exact inf_le_left)

theorem inline_state_inv (fc i : Nat) (ce : Bool) (addr : Nat)
    (F : List SymbolizedFrame) (A r : Nat)
    (cch : List (Nat × List SymbolizedFrame)) (ql acc0 : List Nat)
    (maxI : Nat) (fr2 : List SymbolizedFrame) (fr1 : SymbolizedFrame)
    (hi : i < A) (hA : A ≤ fc) (hF : F.length = fc)
    (hacc : ∀ j ∈ acc0 ++ [i], j < fc)
    (hmaxI : maxI ≤ fc - A) (hfr2 : fr2.length ≤ maxI) :
    SymInv fc
      (let frames2 := (copyInto fr2 fr2.length F A).set i fr1
       let N := countFrames ((frames2.drop A).take maxI)
       let s1 : SymState :=
         { frames := rotateRange frames2 i A (A + N)
           addrCount := A + N
           remaining := r
           cache := cch
           queryLog := ql
           acc := acc0 ++ [i] ++ idxRange A (A + maxI) ++ [i] ++ idxRange i (A + N) }
       if ce then
         { s1 with
            cache := cacheSet cch addr (mkCacheGroup s1.frames i N)
            acc := s1.acc ++ idxRange i (i + min (N + 1) kCachedFrames) }
       else s1) := by
  dsimp only
  have hN : countFrames ((((copyInto fr2 fr2.length F A).set i fr1).drop A).take maxI) ≤ maxI :=
    countFrames_take_le _ _
  split
  · refine ⟨?_, by dsimp only; omega, by dsimp only; omega, ?_⟩
    · dsimp only
      simp only [rotateRange, copyInto, List.length_append, List.length_take,
        List.length_drop, List.length_set]
      omega
    · dsimp only
      exact acc_bound_append (acc_bound_append (acc_bound_append (acc_bound_append hacc
        (acc_bound_idxRange (by omega))) (acc_bound_single (by omega)))
        (acc_bound_idxRange (by omega))) (acc_bound_idxRange (by omega))
  · refine ⟨?_, by dsimp only; omega, by dsimp only; omega, ?_⟩
    · dsimp only
      simp only [rotateRange, copyInto, List.length_append, List.length_take,
        List.length_drop, List.length_set]
      omega
    · dsimp only
      exact acc_bound_append (acc_bound_append (acc_bound_append hacc
        (acc_bound_idxRange (by omega))) (acc_bound_single (by omega)))
        (acc_bound_idxRange (by omega))

theorem innerBody_inv (file : ElfFileModel) (lAddr : Nat) (mode : LocationInfoMode)
    (ce : Bool) (fc : Nat) (hfc : fc < usize) (i : Nat) (s : SymState)
    (hi : i < s.addrCount) (hinv : SymInv fc s) :
    SymInv fc (innerBody file lAddr mode ce fc i s).2 := by
  obtain ⟨hlen, hac1, hacfc, hacc⟩ := hinv
  have hib : i < fc := lt_of_lt_of_le hi hacfc
  have hacc1 : ∀ j ∈ s.acc ++ [i], j < fc :=
    acc_bound_append hacc (acc_bound_single hib)
  rw [innerBody]
  dsimp only
  split
  · exact ⟨hlen, hac1, hacfc, hacc1⟩
  · split
    · -- cache hit: some group
      rename_i g hg
      split
      · -- cached group empty: numInlineFrames is the underflowed usizeMax
        rename_i hA hB
        split
        · rename_i hfit
          exfalso
          rw [usize] at hfc
          rw [usizeMax, usize] at hfit
          norm_num at hfc hfit
          omega
        · exact ⟨hlen, hac1, hacfc, hacc1⟩
      · -- cached group nonempty: replay when it fits, else skip
        rename_i hA hB
        split
        · rename_i hfit
          refine ⟨?_, by dsimp only; omega, by dsimp only; omega, ?_⟩
          · dsimp only
            have hgl := countFrames_le_length g
            simp only [copyInto, moveBackward, List.length_append,
              List.length_take, List.length_drop]
            omega
          · dsimp only
            exact acc_bound_append (acc_bound_append (acc_bound_append hacc1
              (acc_bound_idxRange hacfc)) (acc_bound_idxRange (by omega)))
              (acc_bound_idxRange (by omega))
        · exact ⟨hlen, hac1, hacfc, hacc1⟩
    · -- cache miss / cache disabled: full resolution path
      split
      · -- address in a known section
        split
        · -- FULL_WITH_INLINE with trailing slots: scratch expansion and rotation
          dsimp only
          exact inline_state_inv fc i ce _ s.frames s.addrCount _ _ _ _ _ _ _
            hi hacfc hlen hacc1 (min_le_right _ _)
            (setSymbolizedFrame_snd_len _ _ _ _)
        · -- direct resolution into the single slot
          dsimp only
          split
          · refine ⟨by simp only [List.length_set]; exact hlen, hac1, hacfc, ?_⟩
            exact acc_bound_append (acc_bound_append hacc1 (acc_bound_single hib))
              (acc_bound_idxRange (by omega))
          · exact ⟨by simp only [List.length_set]; exact hlen, hac1, hacfc,
              acc_bound_append hacc1 (acc_bound_single hib)⟩
      · -- address outside all sections: frame left unresolved
        exact ⟨hlen, hac1, hacfc, hacc1⟩
theorem innerLoop_inv (file : ElfFileModel) (lAddr : Nat) (mode : LocationInfoMode)
    (ce : Bool) (fc : Nat) (hfc : fc < usize) :
    ∀ (fuel i : Nat) (s : SymState), SymInv fc s →
      SymInv fc (innerLoop file lAddr mode ce fc fuel i s) := by
  intro fuel
  induction fuel with
  | zero => intro i s h; exact h
  | succ n ih =>
      intro i s h
      rw [innerLoop]
      split
      · rename_i hcond
        exact ih _ _ (innerBody_inv file lAddr mode ce fc hfc i s hcond.1 h)
      · exact h

theorem outerLoop_inv (env : Env) (self : String) (mode : LocationInfoMode)
    (ce : Bool) (fc : Nat) (hfc : fc < usize) :
    ∀ (maps : List LinkMapEntry) (s : SymState), SymInv fc s →
      SymInv fc (outerLoop env self mode ce fc maps s) := by
  intro maps
  induction maps with
  | nil => intro s h; exact h
  | cons m rest ih =>
      intro s h
      rw [outerLoop]
      split
      · split
        · exact ih _ h
        · rename_i file hfile
          exact ih _ (innerLoop_inv file m.l_addr mode ce fc hfc _ _ _ h)
      · exact h
/-- C9: under the precondition frames.size() >= addrs.size(), every
frame-buffer element access performed by symbolize() — the initial
clear/count and address-assignment passes, the cache-replay shift
(move_backward plus the copy of numInlineFrames+1 entries, which runs only
when numInlineFrames <= frameCount - addrCount), the inline scratch range
(capped at min(kMaxInlineLocationInfoPerFrame, frameCount - addrCount)),
the rotation, and the cache-population reads — stays within
frames[0 .. frames.size()): every index in the instrumentation log `acc`
is strictly below frames.length. -/
theorem C9_all_accesses_in_bounds (env : Env) (mode : LocationInfoMode)
    (ce : Bool) (cache0 : List (Nat × List SymbolizedFrame))
    (addrs : List Nat) (frames : List SymbolizedFrame)
    (hpre : addrs.length ≤ frames.length)
    (hsz : frames.length < usize) :
    ∀ j ∈ (symbolize env mode ce cache0 addrs frames).acc,
      j < frames.length := by
  rw [symbolize]
  dsimp only
  split
  · exact acc_bound_idxRange hpre
  · split
    · exact acc_bound_idxRange hpre
    · split
      · exact acc_bound_idxRange hpre
      · rename_i hrem hrv x self hself
        refine (outerLoop_inv env self mode ce frames.length hsz env.linkMaps _
          ⟨?_, ?_, hpre, acc_bound_append (acc_bound_idxRange hpre)
            (acc_bound_idxRange hpre)⟩).2.2.2
        · dsimp only
          rw [assignAddrs_length, clearUnfound_length]
        · exact countUnfound_pos_len _ _ hrem
theorem C9_witness :
    [100, 5].length ≤ (List.replicate 3 ({} : SymbolizedFrame)).length ∧
    (List.replicate 3 ({} : SymbolizedFrame)).length < usize ∧
    ∀ j ∈ (symbolize envA LocationInfoMode.FULL_WITH_INLINE true [] [100, 5]
        (List.replicate 3 ({} : SymbolizedFrame))).acc,
      j < (List.replicate 3 ({} : SymbolizedFrame)).length :=
  ⟨by decide, by norm_num [usize],
   C9_all_accesses_in_bounds envA LocationInfoMode.FULL_WITH_INLINE true [] [100, 5]
     (List.replicate 3 ({} : SymbolizedFrame)) (by decide) (by norm_num [usize])⟩
